import Mathlib

/-!
Verification development for the IIS-Tunnel deployment tool.

The TypeScript sources are shallowly embedded: pure functions (the batch
script generators) become Lean functions over the same data; stateful
services (the SSH session cache, the filesystem operations) are embedded as
explicit state-passing functions whose external primitives (SFTP calls,
fs-extra calls) act on an explicit model of the filesystem; fallible
asynchronous code (promise rejection / thrown exceptions) is embedded with
the Except monad.
-/

/-- Location kind tag: `type: 'local' | 'ssh'` from config.types. -/
inductive LocType where
  | local
  | ssh
deriving DecidableEq, Repr

/-- Remote endpoint data from `SSHConfig` (auth material omitted: it plays
no role in the embedded operations other than being present). -/
structure SSHCfgM where
  host : String
  port : Nat
  username : String
deriving DecidableEq, Repr

/-- `LocationConfig { type, path, ssh? }`. -/
structure LocationConfig where
  type : LocType
  path : String
  ssh : Option SSHCfgM
deriving DecidableEq, Repr

/-- A folder selector: either a plain folder name (copy the whole folder)
or an object mapping folder names to explicit file lists, i.e. the
TypeScript shape `string | \x7b [key: string]: string[] \x7d`.  The map case
keeps the insertion order of `Object.entries`. -/
inductive FolderSpec where
  | whole (name : String)
  | filesMap (entries : List (String × List String))
deriving DecidableEq, Repr

/-! ## SSHService.exec (src/services/ssh.ts, lines 294-324)

The remote command execution accumulates stdout data chunks and stderr
data chunks; on stream close with exit code `code` it rejects with the
captured stderr exactly when `code !== 0 && stderr` (nonempty string is
truthy), and otherwise resolves with the captured stdout. -/

/-- Result of `SSHService.exec` for a remote process that emitted the given
stdout and stderr chunks and exited with `code`. -/
def sshExec (code : Int) (outChunks errChunks : List String) : Except String String :=
  let stdout := String.join outChunks
  let stderr := String.join errChunks
  if code ≠ 0 ∧ stderr ≠ "" then Except.error stderr else Except.ok stdout

/-! ## BackupService.rotateBackups (unnamed service file, lines 59-92)

`getBackupsList` filters the directory listing to names starting with
`backup-`.  `rotateBackups` keeps the listing when its length is at most
`maxBackups`; otherwise it sorts ascending with `localeCompare` (modelled
as the lexicographic order on strings) and deletes the first
`length - maxBackups` entries. -/

/-- Prefix filter of `getBackupsList`. -/
def getBackupsList (files : List String) : List String :=
  files.filter (fun f => f.startsWith "backup-")

/-- The list of backup names `rotateBackups` deletes, in deletion order:
empty when no rotation is needed, otherwise the oldest
`length - maxBackups` names of the ascending sort. -/
def rotateDeleted (files : List String) (maxBackups : Nat) : List String :=
  let backups := getBackupsList files
  if backups.length ≤ maxBackups then []
  else (List.insertionSort (fun a b => a ≤ b) backups).take (backups.length - maxBackups)

/-- Backup entries remaining in the backup root after `rotateBackups`:
the listed backups minus the deleted ones. -/
def rotateSurvivors (files : List String) (maxBackups : Nat) : List String :=
  (getBackupsList files).filter (fun b => b ∉ rotateDeleted files maxBackups)

/-! ## FileOpsService.ensureSSHConnection (src/services/file-ops.ts, lines 26-41)

The service owns `sshConnections : Map<string, SSHService>` keyed by
`host:port`.  Sessions are modelled by numeric identifiers; `opened`
counts how many `new SSHService()/connect` pairs have run. -/

/-- State of the session cache inside one `FileOpsService`. -/
structure ConnState where
  connections : List (String × Nat)
  nextId : Nat
  opened : Nat
deriving DecidableEq, Repr

/-- The cache state of a freshly constructed `FileOpsService`. -/
def initConnState : ConnState := ⟨[], 0, 0⟩

/-- The cache key: host and port, the username is not part of the key. -/
def connKey (c : SSHCfgM) : String := c.host ++ ":" ++ toString c.port

/-- `ensureSSHConnection`: null unless the location is an ssh location with
endpoint data; otherwise the cached session for `host:port`, or a newly
opened one that is then cached. -/
def ensureSSHConnection (loc : LocationConfig) (st : ConnState) : Option Nat × ConnState :=
  match loc.type, loc.ssh with
  | LocType.ssh, some c =>
    let key := connKey c
    match st.connections.lookup key with
    | some i => (some i, st)
    | none =>
      (some st.nextId, ⟨st.connections ++ [(key, st.nextId)], st.nextId + 1, st.opened + 1⟩)
  | _, _ => (none, st)

/-- Run a sequence of `ensureSSHConnection` calls, keeping only the state. -/
def runEnsures (locs : List LocationConfig) (st : ConnState) : ConnState :=
  locs.foldl (fun s l => (ensureSSHConnection l s).2) st

/-- The `host:port` keys of the ssh locations in a call sequence, in order. -/
def sshKeys (locs : List LocationConfig) : List String :=
  locs.filterMap (fun l =>
    match l.type, l.ssh with
    | LocType.ssh, some c => some (connKey c)
    | _, _ => none)

/-! ## deployCommand (src/commands/deploy.ts, lines 17-248)

The orchestrator body is `try \x7b stage1 .. stage4 \x7d finally \x7b close \x7d`
with no catch clause: every fail-fast stage catches its own error, pushes
the message onto `errors`, and re-throws, so the exception leaves the
function (the `DeployResult` at the bottom is never built on that path).
Stage 4 (cleanup) catches and only warns.  Each stage outcome is an input
of the model; `Except.error m` is a promise rejection with message `m`,
and the model result `Except.error m` is the exception propagating out of
`deployCommand` after the finally block ran. -/

/-- `DeployResult` (config.types): the timing fields are wall-clock dates
taken at entry and exit and carry no program logic, so they are omitted. -/
structure DeployResult where
  success : Bool
  filesDeployed : Nat
  errors : List String
deriving DecidableEq, Repr

/-- Outcome of each external effect the deploy pipeline awaits, in program
order: `copyToTemp` (returning the staged file count), `compressFiles`,
`ensureDir`/`deleteContents`/`transferFile` on staging, remote
decompression, BAT generation and upload, update.bat execution, and the
stage-4 cleanup. -/
structure StageOutcomes where
  copyToTemp : Except String Nat
  compress : Except String Unit
  ensureDirStaging : Except String Unit
  deleteStagingContents : Except String Unit
  transfer : Except String Unit
  decompress : Except String Unit
  uploadBats : Except String Unit
  execUpdate : Except String Unit
  cleanup : Except String Unit
deriving Repr

/-- `deployCommand`: each match arm mirrors one `catch` block that pushes
the message and re-throws; the pushed list dies with the exception, so the
result record is only built when every fail-fast stage resolved, with
`errors` still empty and `success := errors.length === 0`. A cleanup
failure is only warned about: it neither pushes nor re-throws. -/
def deployCommand (o : StageOutcomes) : Except String DeployResult :=
  match o.copyToTemp with
  | Except.error m => Except.error m
  | Except.ok _sourceFiles =>
    match o.compress with
    | Except.error m => Except.error m
    | Except.ok _ =>
      match o.ensureDirStaging with
      | Except.error m => Except.error m
      | Except.ok _ =>
        match o.deleteStagingContents with
        | Except.error m => Except.error m
        | Except.ok _ =>
          match o.transfer with
          | Except.error m => Except.error m
          | Except.ok _ =>
            match o.decompress with
            | Except.error m => Except.error m
            | Except.ok _ =>
              match o.uploadBats with
              | Except.error m => Except.error m
              | Except.ok _ =>
                match o.execUpdate with
                | Except.error m => Except.error m
                | Except.ok _ =>
                  let errors : List String := []
                  Except.ok { success := errors.isEmpty, filesDeployed := 0, errors := errors }

/-- All fail-fast stages of the deploy pipeline resolved (the stage-4
cleanup is excluded: its failure is not fatal). -/
def allStagesOk (o : StageOutcomes) : Prop :=
  o.copyToTemp.isOk ∧ o.compress.isOk ∧ o.ensureDirStaging.isOk ∧
    o.deleteStagingContents.isOk ∧ o.transfer.isOk ∧ o.decompress.isOk ∧
    o.uploadBats.isOk ∧ o.execUpdate.isOk

instance (o : StageOutcomes) : Decidable (allStagesOk o) := by
  unfold allStagesOk; infer_instance

/-- Concrete stage outcomes whose first stage rejects. -/
def failingOutcomes : StageOutcomes :=
  { copyToTemp := Except.error "Source folder does not exist: bin"
    compress := Except.ok ()
    ensureDirStaging := Except.ok ()
    deleteStagingContents := Except.ok ()
    transfer := Except.ok ()
    decompress := Except.ok ()
    uploadBats := Except.ok ()
    execUpdate := Except.ok ()
    cleanup := Except.ok () }

/-- Concrete stage outcomes where every stage resolves and the staging
copy reported 42 files. -/
def allOkOutcomes : StageOutcomes :=
  { copyToTemp := Except.ok 42
    compress := Except.ok ()
    ensureDirStaging := Except.ok ()
    deleteStagingContents := Except.ok ()
    transfer := Except.ok ()
    decompress := Except.ok ()
    uploadBats := Except.ok ()
    execUpdate := Except.ok ()
    cleanup := Except.ok () }

/-! ## Path joining helpers (src/services/file-ops.ts, lines 14-24)

`toSshPath` turns backslashes into slashes; `joinPath` joins with slashes,
then normalizes backslashes and collapses runs of slashes.  `path.join` of
Node on a base path and a plain segment name is modelled as joining with a
single slash. -/

/-- Backslash-to-slash normalization, `toSshPath`. -/
def toSlashes (s : String) : String :=
  String.map (fun c => if c = '\\' then '/' else c) s

/-- Collapse every run of slashes to a single slash, the
`replace(slash-runs, single slash)` step of `joinPath`. -/
def dedupSlash : List Char → List Char
  | [] => []
  | [c] => [c]
  | a :: b :: rest =>
    if a = '/' ∧ b = '/' then dedupSlash (a :: rest)
    else a :: dedupSlash (b :: rest)

/-- `FileOpsService.joinPath` on one extra segment. -/
def joinPathS (base seg : String) : String :=
  ⟨dedupSlash (toSlashes (base ++ "/" ++ seg)).data⟩

/-- Node `path.join(base, name)` for a plain segment name. -/
def pathJoinLocal (base name : String) : String := base ++ "/" ++ name

/-- The join the service applies at a location of the given kind:
`path.join` for local locations, `joinPath` for ssh locations. -/
def typeJoin (t : LocType) (base name : String) : String :=
  match t with
  | LocType.local => pathJoinLocal base name
  | LocType.ssh => joinPathS base name

/-- Join below a location root. -/
def locJoin (loc : LocationConfig) (name : String) : String :=
  typeJoin loc.type loc.path name

/-! ## Selector-driven copies
(copySpecificFolders / copySpecificFiles, src/services/file-ops.ts, lines 78-204)

The external filesystems are a read-only environment: an existence test
per location kind and the recursive file count that the whole-folder copy
returns.  The copies actually performed are recorded as a list of
operations; the four transport strategies inside `copyFiles` and the four
per-file transport branches all amount to one tree copy or one file copy
here. -/

/-- External filesystem facts consumed by the selector-copy code. -/
structure FSEnv where
  pathExistsAt : LocType → String → Bool
  countAt : String → Nat

/-- A copy actually performed. -/
inductive CopyOp where
  | tree (src dest : String)
  | single (src dest : String)
deriving DecidableEq, Repr

/-- `FileOpsService.ensureDir` (lines 343-358): it VERIFIES that the
directory exists and fails otherwise; it does not create it. -/
def ensureDirE (E : FSEnv) (loc : LocationConfig) : Except String Unit :=
  match loc.type with
  | LocType.local =>
    if E.pathExistsAt LocType.local loc.path then Except.ok ()
    else Except.error ("Directory does not exist: " ++ loc.path)
  | LocType.ssh =>
    let sp := toSlashes loc.path
    if E.pathExistsAt LocType.ssh sp then Except.ok ()
    else Except.error ("Directory does not exist on remote: " ++ sp)

/-- The per-file loop of `copySpecificFiles` (lines 165-201): each file is
checked to exist at the source and then copied over the applicable
transport; a missing file aborts with the path in the message. -/
def copyFilesLoop (E : FSEnv) (source dest : LocationConfig)
    (srcFolderPath destFolderPath : String) :
    List String → List CopyOp × Except String Nat
  | [] => ([], Except.ok 0)
  | f :: rest =>
    let srcFile := typeJoin source.type srcFolderPath f
    let destFile := typeJoin dest.type destFolderPath f
    if E.pathExistsAt source.type srcFile then
      let (ops, r) := copyFilesLoop E source dest srcFolderPath destFolderPath rest
      (CopyOp.single srcFile destFile :: ops, r.map (· + 1))
    else ([], Except.error ("Source file does not exist: " ++ srcFile))

/-- `copySpecificFiles` (lines 143-204): joins the folder under both
roots, verifies (not creates) the destination folder, then runs the file
loop. -/
def copySpecificFiles (E : FSEnv) (source dest : LocationConfig)
    (folderName : String) (files : List String) : List CopyOp × Except String Nat :=
  let srcFolderPath := locJoin source folderName
  let destFolderPath := locJoin dest folderName
  match ensureDirE E { dest with path := destFolderPath } with
  | Except.error m => ([], Except.error m)
  | Except.ok _ => copyFilesLoop E source dest srcFolderPath destFolderPath files

/-- The whole-folder branch of `copySpecificFolders` (lines 86-109):
existence check on the source folder, then `copyFiles(src, dest, null)`,
which recursively copies the tree and resolves with the source file
count. -/
def copyWholeFolder (E : FSEnv) (source dest : LocationConfig) (name : String) :
    List CopyOp × Except String Nat :=
  let srcPath := locJoin source name
  let destPath := locJoin dest name
  if E.pathExistsAt source.type srcPath then
    ([CopyOp.tree srcPath destPath], Except.ok (E.countAt srcPath))
  else ([], Except.error ("Source folder does not exist: " ++ srcPath))

/-- The `Object.entries` loop of the map branch of `copySpecificFolders`
(lines 110-137): per pair, check the source folder exists, then copy the
enumerated files. -/
def pairsLoop (E : FSEnv) (source dest : LocationConfig) :
    List (String × List String) → List CopyOp × Except String Nat
  | [] => ([], Except.ok 0)
  | (fn, fl) :: rest =>
    let srcFolderPath := locJoin source fn
    if E.pathExistsAt source.type srcFolderPath then
      match copySpecificFiles E source dest fn fl with
      | (ops1, Except.error m) => (ops1, Except.error m)
      | (ops1, Except.ok n1) =>
        let (ops2, r2) := pairsLoop E source dest rest
        (ops1 ++ ops2, r2.map (n1 + ·))
    else ([], Except.error ("Source folder does not exist: " ++ srcFolderPath))

/-- One selector of the `copySpecificFolders` loop. -/
def runSel (E : FSEnv) (source dest : LocationConfig) :
    FolderSpec → List CopyOp × Except String Nat
  | FolderSpec.whole n => copyWholeFolder E source dest n
  | FolderSpec.filesMap entries => pairsLoop E source dest entries

/-- `copySpecificFolders` (lines 78-141): selectors in order, first
failure aborts the loop (the thrown error leaves the for loop). -/
def runSels (E : FSEnv) (source dest : LocationConfig) :
    List FolderSpec → List CopyOp × Except String Nat
  | [] => ([], Except.ok 0)
  | s :: rest =>
    match runSel E source dest s with
    | (ops1, Except.error m) => (ops1, Except.error m)
    | (ops1, Except.ok n1) =>
      let (ops2, r2) := runSels E source dest rest
      (ops1 ++ ops2, r2.map (n1 + ·))

/-- Validity of a map pair: source folder exists, destination folder
verification succeeds, every enumerated file exists. -/
def pairValid (E : FSEnv) (source dest : LocationConfig) (pr : String × List String) : Prop :=
  E.pathExistsAt source.type (locJoin source pr.1) = true ∧
  (ensureDirE E { dest with path := locJoin dest pr.1 }).isOk = true ∧
  ∀ f ∈ pr.2, E.pathExistsAt source.type (typeJoin source.type (locJoin source pr.1) f) = true

/-- Validity of a selector: every check performed while running it
passes. -/
def selValid (E : FSEnv) (source dest : LocationConfig) : FolderSpec → Prop
  | FolderSpec.whole n => E.pathExistsAt source.type (locJoin source n) = true
  | FolderSpec.filesMap entries => ∀ pr ∈ entries, pairValid E source dest pr

/-- The two failure shapes of the claim: a whole-folder selector whose
folder is missing at the source, or a map selector naming a missing file,
in each case with every check before the failing one passing.  The second
index carries the error message of the failing check. -/
inductive SelFirstFail (E : FSEnv) (source dest : LocationConfig) : FolderSpec → String → Prop where
  | whole (n : String)
      (h : E.pathExistsAt source.type (locJoin source n) = false) :
      SelFirstFail E source dest (FolderSpec.whole n)
        ("Source folder does not exist: " ++ locJoin source n)
  | file (preE : List (String × List String)) (fn : String) (fl : List String)
      (postE : List (String × List String)) (preF : List String) (f : String)
      (postF : List String)
      (hpre : ∀ pr ∈ preE, pairValid E source dest pr)
      (hfolder : E.pathExistsAt source.type (locJoin source fn) = true)
      (hdest : (ensureDirE E { dest with path := locJoin dest fn }).isOk = true)
      (hsplit : fl = preF ++ f :: postF)
      (hpreF : ∀ g ∈ preF,
        E.pathExistsAt source.type (typeJoin source.type (locJoin source fn) g) = true)
      (hf : E.pathExistsAt source.type (typeJoin source.type (locJoin source fn) f) = false) :
      SelFirstFail E source dest (FolderSpec.filesMap (preE ++ (fn, fl) :: postE))
        ("Source file does not exist: " ++ typeJoin source.type (locJoin source fn) f)

/-! ## Recursive upload (uploadDirectory, src/services/file-ops.ts, lines 228-247)

The local source tree is an inductive value; the remote filesystem is the
list of directory paths (segment lists) that exist.  `ssh.mkdir(p, true)`
creates every missing segment of the path; `ssh.uploadFile` (SFTP fastPut)
succeeds exactly when the parent directory of the target exists. -/

/-- A node of the local source tree. -/
inductive FNode where
  | file (name : String)
  | dir (name : String) (children : List FNode)
deriving Repr

/-- Remote paths as segment lists. -/
abbrev FPath := List String

/-- `SSHService.mkdir(p, recursive := true)` (ssh.ts lines 115-144):
walks the segments and creates each missing one, so afterwards every
prefix of the path exists.  Pre-existing directories are kept. -/
def sshMkdirRec (dirs : List FPath) (p : FPath) : List FPath :=
  ((List.range p.length).map (fun i => p.take (i + 1))).foldl
    (fun d q => if q ∈ d then d else d ++ [q]) dirs

/-- SFTP file upload: succeeds exactly when the parent directory exists. -/
def sshUploadFileOk (dirs : List FPath) (p : FPath) : Bool :=
  decide (p.dropLast ∈ dirs)

/-- `uploadDirectory`: walk the entries; a subdirectory is created on the
remote before its contents are uploaded; a file is uploaded into the
current remote directory.  Resolves with the uploaded-file count and the
remote directory set. -/
def uploadDirectory : List FNode → FPath → List FPath → Except String (Nat × List FPath)
  | [], _, dirs => Except.ok (0, dirs)
  | FNode.file n :: rest, p, dirs =>
    if sshUploadFileOk dirs (p ++ [n]) then
      match uploadDirectory rest p dirs with
      | Except.error m => Except.error m
      | Except.ok (c, d) => Except.ok (c + 1, d)
    else Except.error ("uploadFile failed: no remote directory for " ++ n)
  | FNode.dir n cs :: rest, p, dirs =>
    let dirs1 := sshMkdirRec dirs (p ++ [n])
    match uploadDirectory cs (p ++ [n]) dirs1 with
    | Except.error m => Except.error m
    | Except.ok (c1, dirs2) =>
      match uploadDirectory rest p dirs2 with
      | Except.error m => Except.error m
      | Except.ok (c2, dirs3) => Except.ok (c1 + c2, dirs3)

/-! ## deleteContents (src/services/file-ops.ts, lines 283-319)

Both filesystems are modelled as a list of entries, each an absolute path
(segment list) with a directory flag.  `fs.remove` removes a path and
everything below it; SFTP `unlink`/`rmdir` remove a single entry;
`readdir`/`readDir` list the immediate child names (`readDir` resolves
with the empty list when the path is missing, ssh.ts lines 76-92). -/

/-- One filesystem entry. -/
structure FSEntry where
  path : FPath
  isDir : Bool
deriving DecidableEq, Repr

/-- `fs.pathExists` / a successful stat. -/
def pathExistsFS (fs : List FSEntry) (p : FPath) : Bool :=
  fs.any (fun e => e.path == p)

/-- Immediate child names of a directory: entries one segment below it. -/
def readdirNames (fs : List FSEntry) (p : FPath) : List String :=
  fs.filterMap (fun e =>
    if p.isPrefixOf e.path then
      match e.path.drop p.length with
      | [n] => some n
      | _ => none
    else none)

/-- `fs.remove`: delete the path and everything below it. -/
def removeSubtree (fs : List FSEntry) (p : FPath) : List FSEntry :=
  fs.filter (fun e => !(p.isPrefixOf e.path))

/-- SFTP `unlink` / `rmdir`: delete exactly this entry. -/
def removeEntry (fs : List FSEntry) (p : FPath) : List FSEntry :=
  fs.filter (fun e => !(e.path == p))

/-- `SSHService.stat`: null when absent, otherwise the directory flag. -/
def statIsDir (fs : List FSEntry) (p : FPath) : Option Bool :=
  (fs.find? (fun e => e.path == p)).map (fun e => e.isDir)

/-- `SSHService.deleteDir` (ssh.ts lines 223-245): list the children,
delete each one (recursively for directories), then rmdir the directory
itself.  The fuel bounds the recursion depth; one more than the entry
count always suffices, and the properties proved below hold for every
positive fuel. -/
def deleteDirFuel : Nat → FPath → List FSEntry → List FSEntry
  | 0, _, fs => fs
  | fuel + 1, p, fs =>
    let kids := readdirNames fs p
    let fs1 := kids.foldl (fun f n =>
      let q := p ++ [n]
      if (statIsDir f q).getD false then deleteDirFuel fuel q f
      else removeEntry f q) fs
    removeEntry fs1 p

/-- `SSHService.deleteDir` at adequate fuel. -/
def deleteDir (p : FPath) (fs : List FSEntry) : List FSEntry :=
  deleteDirFuel (fs.length + 1) p fs

/-- `deleteLocalContents` (lines 294-303): no-op when the directory does
not exist, otherwise `fs.remove` each listed immediate child. -/
def deleteLocalContents (p : FPath) (fs : List FSEntry) : List FSEntry :=
  if pathExistsFS fs p then
    (readdirNames fs p).foldl (fun f n => removeSubtree f (p ++ [n])) fs
  else fs

/-- `deleteSSHContents` (lines 305-319): list the immediate children (the
empty list when the directory is missing), then delete each child, with
`deleteDir` for directories and `deleteFile` otherwise. -/
def deleteSSHContents (p : FPath) (fs : List FSEntry) : List FSEntry :=
  (readdirNames fs p).foldl (fun f n =>
    let q := p ++ [n]
    if (statIsDir f q).getD false then deleteDir q f
    else removeEntry f q) fs

/-- `deleteContents` (lines 283-292): dispatch on the location kind. -/
def deleteContentsM (t : LocType) (root : FPath) (fs : List FSEntry) : List FSEntry :=
  match t with
  | LocType.local => deleteLocalContents root fs
  | LocType.ssh => deleteSSHContents root fs

/-! ## Script generators (src/services/file-ops.ts, lines 846-1080 and 1152-1197)

`generateUpdateBat` and `generateRestoreBat` are pure: they build an array
of batch lines and join it with CRLF.  The literal array of the source is
reproduced here; the only split is the one already present in the source,
where the update script splices `generateCopyCommands` between a fixed
prefix and a fixed suffix. -/

/-- A single-quote character, used inside several batch lines. -/
def sqch : String := (Char.ofNat 39).toString

/-- Slash-to-backslash normalization applied to the log file path. -/
def toBackslashes (s : String) : String :=
  String.map (fun c => if c = '/' then '\\' else c) s

/-- Backup retention configuration `\x7b path, maxBackups? \x7d`. -/
structure BackupCfg where
  path : String
  maxBackups : Option Nat
deriving DecidableEq, Repr

/-- The batch line that copies the destination into the timestamped backup
folder. -/
def backupXcopyLine : String :=
  "xcopy \"%dest_dir%\\*\" \"%current_backup%\\\" /E /I /Q /Y"

/-- The errorlevel guard opening line that follows each guarded command. -/
def guardLine : String := "if !errorlevel! equ 0 ("

/-- The jump to the shared error path. -/
def gotoErrorLine : String := "goto :error"

/-- The timestamp helper lines of the generated scripts. -/
def forfDateLine : String :=
  "for /f %%I in (" ++ sqch ++ "powershell -NoProfile -Command \"Get-Date -Format yyyy-MM-dd\"" ++ sqch ++ ") do set \"date_str=%%I\""

/-- Time-of-day helper line. -/
def forfTimeLine : String :=
  "for /f %%I in (" ++ sqch ++ "powershell -NoProfile -Command \"Get-Date -Format HH:mm:ss\"" ++ sqch ++ ") do set \"time_str=%%I\""

/-- Timestamp helper line for the backup folder name. -/
def forfStampLine : String :=
  "for /f %%I in (" ++ sqch ++ "powershell -NoProfile -Command \"Get-Date -Format yyyyMMdd_HHmmss\"" ++ sqch ++ ") do set \"timestamp=%%I\""

/-- The `dir /b /ad /o-d` loop opener over `backup_*` entries, shared by
the rotation step of the update script and the search step of the restore
script. -/
def forfBackupDirLine : String :=
  "for /f \"tokens=*\" %%F in (" ++ sqch ++ "dir /b /ad /o-d \"%backup_dir%\\backup_*\" 2^>nul" ++ sqch ++ ") do ("

/-- The copy commands generated for one folder selector
(`generateCopyCommands`, selector branch). -/
def copyCmdsForSpec (sourceDir destDir : String) : FolderSpec → List String
  | FolderSpec.whole f =>
    ["xcopy \"" ++ (sourceDir ++ ("\\" ++ (f ++ "\\*\" \""))) ++ (destDir ++ ("\\" ++ (f ++ "\\\" /E /I /Y /Q"))),
     guardLine,
     "echo Folder copied: " ++ f,
     ") else (",
     "echo ERROR: Failed to copy folder " ++ f,
     gotoErrorLine,
     ")"]
  | FolderSpec.filesMap entries =>
    entries.flatMap (fun pr =>
      ("if not exist \"" ++ (destDir ++ ("\\" ++ (pr.1 ++ ("\" mkdir \"" ++ (destDir ++ ("\\" ++ (pr.1 ++ "\"")))))))) ::
      pr.2.flatMap (fun file =>
        ["copy /y \"" ++ (sourceDir ++ ("\\" ++ (pr.1 ++ ("\\" ++ (file ++ ("\" \"" ++ (destDir ++ ("\\" ++ (pr.1 ++ ("\\" ++ (file ++ "\""))))))))))),
         guardLine,
         "echo File copied: " ++ (pr.1 ++ ("\\" ++ file)),
         ") else (",
         "echo ERROR: Failed to copy " ++ (pr.1 ++ ("\\" ++ file)),
         gotoErrorLine,
         ")"]))

/-- `generateCopyCommands` (lines 1152-1197): per-selector copy commands,
or, without selectors, the copy-everything-but-bat-files loops. -/
def generateCopyCommands (sourceDir destDir : String)
    (sourceFolders : Option (List FolderSpec)) : List String :=
  match sourceFolders with
  | some (s :: rest) => (s :: rest).flatMap (copyCmdsForSpec sourceDir destDir)
  | _ =>
    ["for /d %%D in (\"" ++ (sourceDir ++ "\\*\") do ("),
     "xcopy \"%%D\\*\" \"" ++ (destDir ++ "\\%%~nxD\\\" /E /I /Y /Q"),
     ")",
     "for %%F in (\"" ++ (sourceDir ++ "\\*\") do ("),
     "if /i not \"%%~xF\"==\".bat\" copy /y \"%%F\" \"" ++ (destDir ++ "\\\""),
     ")"]

/-- The fixed literal tail of the update-script prefix, from the first
banner line down to the `[2/4]` line right before the copy commands. -/
def updatePrefixRest : List String :=
  ["",
   "echo ============================================",
   "echo FILE UPDATE SCRIPT",
   "echo ============================================",
   "echo.",
   "echo This script will perform the following actions:",
   "echo.",
   "echo - Create backup of: %dest_dir%",
   "echo - Copy files from: %source_dir%",
   "echo - Keep %max_backups% most recent backups",
   "echo - Save log to: %logfile%",
   "echo.",
   "echo ============================================",
   "echo.",
   "echo Proceeding with update...",
   "echo.",
   "",
   forfDateLine,
   forfTimeLine,
   forfStampLine,
   "",
   "echo ============================================",
   "echo Starting update process...",
   "echo Date: %date_str% %time_str%",
   "echo ============================================",
   "echo.",
   "",
   "if not exist \"%backup_dir%\" (",
   "mkdir \"%backup_dir%\"",
   "echo Backup folder created: %backup_dir%",
   ")",
   "",
   "echo.",
   "echo [1/4] Creating backup of destination folder...",
   "set \"current_backup=%backup_dir%\\backup_%timestamp%\"",
   "if exist \"%dest_dir%\" (",
   backupXcopyLine,
   guardLine,
   "echo Backup created successfully: %current_backup%",
   ") else (",
   "echo ERROR: Could not create backup",
   gotoErrorLine,
   ")",
   ") else (",
   "echo Destination folder does not exist. Nothing to back up.",
   ")",
   "",
   "echo.",
   "echo [2/4] Copying new files..."]

/-- The lines of the update script before the spliced copy commands. -/
def updatePrefix (sourceDir destDir backupDir logfile : String) (maxBackups : Nat) : List String :=
  "@echo off" ::
  "setlocal enabledelayedexpansion" ::
  ("set \"source_dir=" ++ (sourceDir ++ "\"")) ::
  ("set \"dest_dir=" ++ (destDir ++ "\"")) ::
  ("set \"backup_dir=" ++ (backupDir ++ "\"")) ::
  ("set \"logfile=" ++ (logfile ++ "\"")) ::
  ("set \"max_backups=" ++ (toString maxBackups ++ "\"")) ::
  updatePrefixRest

/-- The fixed lines of the update script after the spliced copy commands:
rotation, log entry, success exit, and the shared error path. -/
def updateSuffix : List String :=
  ["",
   "echo.",
   "echo [3/4] Managing old backups...",
   "set /a counter=0",
   forfBackupDirLine,
   "set /a counter+=1",
   "if !counter! gtr %max_backups% (",
   "rd /s /q \"%backup_dir%\\%%F\"",
   "echo Old backup deleted: %%F",
   ")",
   ")",
   "echo Total backups kept: %max_backups%",
   "",
   "echo.",
   "echo [4/4] Saving log entry...",
   "echo ============================================ >> \"%logfile%\"",
   "echo Update completed: %date_str% %time_str% >> \"%logfile%\"",
   "echo User: %USERNAME% >> \"%logfile%\"",
   "echo Computer: %COMPUTERNAME% >> \"%logfile%\"",
   "echo Source: %source_dir% >> \"%logfile%\"",
   "echo Destination: %dest_dir% >> \"%logfile%\"",
   "echo Backup saved to: %current_backup% >> \"%logfile%\"",
   "echo ============================================ >> \"%logfile%\"",
   "echo. >> \"%logfile%\"",
   "",
   "echo.",
   "echo ============================================",
   "echo PROCESS COMPLETED SUCCESSFULLY",
   "echo ============================================",
   "echo Files copied from: %source_dir%",
   "echo Destination: %dest_dir%",
   "echo Backup saved to: %current_backup%",
   "echo Log saved to: %logfile%",
   "echo.",
   "exit /b 0",
   "",
   ":error",
   "echo.",
   "echo ============================================",
   "echo ERROR: Process did not complete successfully",
   "echo ============================================",
   "echo Please review the error messages above",
   "echo.",
   "echo ============================================ >> \"%logfile%\"",
   "echo ERROR in update: %date_str% %time_str% >> \"%logfile%\"",
   "echo User: %USERNAME% >> \"%logfile%\"",
   "echo Computer: %COMPUTERNAME% >> \"%logfile%\"",
   "echo Process failed - review details >> \"%logfile%\"",
   "echo ============================================ >> \"%logfile%\"",
   "echo. >> \"%logfile%\"",
   "exit /b 1"]

/-- `generateUpdateBat` as its line array (lines 846-968). -/
def generateUpdateBatLines (staging destination : LocationConfig) (backup : BackupCfg)
    (sourceFolders : Option (List FolderSpec)) : List String :=
  let sourceDir := staging.path
  let destDir := destination.path
  let backupDir := backup.path
  let logfile := toBackslashes (pathJoinLocal sourceDir "update.log")
  let maxBackups := backup.maxBackups.getD 3
  updatePrefix sourceDir destDir backupDir logfile maxBackups ++
    generateCopyCommands sourceDir destDir sourceFolders ++
    updateSuffix

/-- `generateUpdateBat`: the CRLF-joined script text. -/
def generateUpdateBat (staging destination : LocationConfig) (backup : BackupCfg)
    (sourceFolders : Option (List FolderSpec)) : String :=
  "\r\n".intercalate (generateUpdateBatLines staging destination backup sourceFolders)

/-- Destination wipe line of the restore script. -/
def rdDestLine : String := "rd /s /q \"%dest_dir%\""

/-- Destination recreate line of the restore script. -/
def mkdirDestLine : String := "mkdir \"%dest_dir%\""

/-- Restore copy line of the restore script. -/
def restoreXcopyLine : String :=
  "xcopy \"%backup_path%\\*\" \"%dest_dir%\\\" /E /I /Y /Q"

/-- A line of the restore script that touches (wipes, recreates or writes
into) the destination directory. -/
def touchesDestB (l : String) : Bool :=
  l == rdDestLine || l == mkdirDestLine || l == restoreXcopyLine

/-- The literal tail of the restore-script header, from the first
timestamp banner to the end of the newest-backup search loop. -/
def restoreHeadTail : List String :=
  ["",
   "echo ============================================",
   "echo RESTORE LATEST BACKUP",
   "echo ============================================",
   "echo Date: %date_str% %time_str%",
   "echo.",
   "",
   "if not exist \"%backup_dir%\" (",
   "echo ERROR: Backup folder not found",
   "echo Expected location: %backup_dir%",
   gotoErrorLine,
   ")",
   "",
   "echo Searching for the most recent backup...",
   "set \"latest_backup=\"",
   forfBackupDirLine,
   "if not defined latest_backup set \"latest_backup=%%F\"",
   ")",
   ""]

/-- Lines of the restore script before the no-backups guard: header,
variables, timestamps, backup-folder existence guard, and the
newest-backup search loop (lines 981-1008 of the source array). -/
def restoreHeadLines (destDir backupDir logfile : String) : List String :=
  "@echo off" ::
  "setlocal enabledelayedexpansion" ::
  "" ::
  ("set \"dest_dir=" ++ (destDir ++ "\"")) ::
  ("set \"backup_dir=" ++ (backupDir ++ "\"")) ::
  ("set \"logfile=" ++ (logfile ++ "\"")) ::
  "" ::
  forfDateLine ::
  forfTimeLine ::
  restoreHeadTail

/-- The guard that fails the script when no `backup_*` entry was found
(lines 1010-1014). -/
def restoreNoBackupBlock : List String :=
  ["if not defined latest_backup (",
   "echo ERROR: No backups found in folder",
   "echo Location: %backup_dir%",
   gotoErrorLine,
   ")"]

/-- Lines between the no-backups guard and the `:error` label: backup
banner, destination wipe and recreate, restore copy, log entry and the
success exit (lines 1016-1064). -/
def restoreMidLines : List String :=
  ["",
   "set \"backup_path=%backup_dir%\\%latest_backup%\"",
   "",
   "echo.",
   "echo ============================================",
   "echo BACKUP FOUND",
   "echo ============================================",
   "echo Backup to restore: %latest_backup%",
   "echo Location: %backup_path%",
   "echo Destination: %dest_dir%",
   "echo ============================================",
   "echo.",
   "",
   "echo.",
   "echo [1/2] Cleaning destination folder...",
   "if exist \"%dest_dir%\" (",
   rdDestLine,
   "echo Destination folder removed",
   ")",
   mkdirDestLine,
   "echo Destination folder recreated",
   "",
   "echo.",
   "echo [2/2] Restoring files from backup...",
   restoreXcopyLine,
   guardLine,
   "echo Files restored successfully",
   ") else (",
   "echo ERROR: Failed to restore files",
   gotoErrorLine,
   ")",
   "",
   "echo ============================================ >> \"%logfile%\"",
   "echo Restore completed: %date_str% %time_str% >> \"%logfile%\"",
   "echo Backup restored: %latest_backup% >> \"%logfile%\"",
   "echo Source: %backup_path% >> \"%logfile%\"",
   "echo Destination: %dest_dir% >> \"%logfile%\"",
   "echo ============================================ >> \"%logfile%\"",
   "echo. >> \"%logfile%\"",
   "",
   "echo.",
   "echo ============================================",
   "echo RESTORE COMPLETED SUCCESSFULLY",
   "echo ============================================",
   "echo Backup restored: %latest_backup%",
   "echo Files copied to: %dest_dir%",
   "echo Log saved to: %logfile%",
   "echo.",
   "exit /b 0",
   ""]

/-- The shared error path of the restore script after the `:error` label
(lines 1066-1077). -/
def restoreErrorTail : List String :=
  ["echo.",
   "echo ============================================",
   "echo ERROR: Restore did not complete",
   "echo ============================================",
   "echo Please review the error messages above",
   "echo.",
   "echo ============================================ >> \"%logfile%\"",
   "echo ERROR in restore: %date_str% %time_str% >> \"%logfile%\"",
   "echo Process failed - review details >> \"%logfile%\"",
   "echo ============================================ >> \"%logfile%\"",
   "echo. >> \"%logfile%\"",
   "exit /b 1"]

/-- `generateRestoreBat` as its line array (lines 971-1078); the literal
source array, split at the no-backups guard and at the `:error` label. -/
def generateRestoreBatLines (staging destination : LocationConfig) (backup : BackupCfg) : List String :=
  let destDir := destination.path
  let backupDir := backup.path
  let logfile := toBackslashes (pathJoinLocal staging.path "restore.log")
  restoreHeadLines destDir backupDir logfile ++
    restoreNoBackupBlock ++
    restoreMidLines ++
    (":error" :: restoreErrorTail)

/-- `generateRestoreBat`: the CRLF-joined script text. -/
def generateRestoreBat (staging destination : LocationConfig) (backup : BackupCfg) : String :=
  "\r\n".intercalate (generateRestoreBatLines staging destination backup)

/-! ## Line classification used by the script-structure theorems -/

/-- A batch copy command (`xcopy ...` or `copy /y ...`). -/
def isCopyCmdB (l : String) : Bool :=
  (l.data.take 6 == "xcopy ".data) || (l.data.take 8 == "copy /y ".data)

/-- A batch exit command (`exit ...`). -/
def isExitCmdB (l : String) : Bool := l.data.take 5 == "exit ".data

/-- A batch goto command (`goto ...`). -/
def isGotoB (l : String) : Bool := l.data.take 5 == "goto ".data

/-- Every errorlevel guard is followed, four lines later (inside its else
branch), by the jump to the shared error path. -/
def guardSafeB : List String → Bool
  | [] => true
  | l :: rest => (l != guardLine || rest[3]? == some gotoErrorLine) && guardSafeB rest

/-! ## Shared concrete inputs used by witnesses and counterexamples -/

/-- A local source location. -/
def locSrc : LocationConfig := ⟨LocType.local, "C:/source", none⟩

/-- A local staging location. -/
def locStaging : LocationConfig := ⟨LocType.local, "D:/staging", none⟩

/-- A local destination location. -/
def locDest : LocationConfig := ⟨LocType.local, "E:/dest", none⟩

/-- A backup configuration without explicit retention. -/
def bkCfg : BackupCfg := ⟨"E:/backups", none⟩

/-- An endpoint used by user alice. -/
def sshA : SSHCfgM := ⟨"server", 22, "alice"⟩

/-- The same host and port used by user bob. -/
def sshB : SSHCfgM := ⟨"server", 22, "bob"⟩

/-- A remote location of alice. -/
def locRemA : LocationConfig := ⟨LocType.ssh, "C:/inetpub", some sshA⟩

/-- A remote location of bob, same host and port, different path and
username. -/
def locRemB : LocationConfig := ⟨LocType.ssh, "D:/backups", some sshB⟩

/-- Filesystem facts where only `C:/source/bin/app.xml` is missing. -/
def envMissingXml : FSEnv :=
  { pathExistsAt := fun _ p => !(p == "C:/source/bin/app.xml")
    countAt := fun _ => 5 }

/-- Filesystem facts where only the destination folder `E:/dest/bin` is
missing. -/
def envMissingDestBin : FSEnv :=
  { pathExistsAt := fun _ p => !(p == "E:/dest/bin")
    countAt := fun _ => 0 }

/-- A small source tree: a folder with one file, plus a top-level file. -/
def sampleTree : List FNode :=
  [FNode.dir "wwwroot" [FNode.file "index.html", FNode.dir "css" [FNode.file "site.css"]],
   FNode.file "app.dll"]

/-- A filesystem with a root directory holding two files and one
subdirectory with a file, plus an unrelated directory. -/
def sampleFS : List FSEntry :=
  [⟨["root"], true⟩, ⟨["root", "a.txt"], false⟩, ⟨["root", "b.txt"], false⟩,
   ⟨["root", "sub"], true⟩, ⟨["root", "sub", "c.txt"], false⟩, ⟨["other"], true⟩]

/-- The fixed lines of the update script between the copy commands and
the `:error` label: rotation, log entry and the success exit. -/
def updateSuffixMain : List String :=
  ["",
   "echo.",
   "echo [3/4] Managing old backups...",
   "set /a counter=0",
   forfBackupDirLine,
   "set /a counter+=1",
   "if !counter! gtr %max_backups% (",
   "rd /s /q \"%backup_dir%\\%%F\"",
   "echo Old backup deleted: %%F",
   ")",
   ")",
   "echo Total backups kept: %max_backups%",
   "",
   "echo.",
   "echo [4/4] Saving log entry...",
   "echo ============================================ >> \"%logfile%\"",
   "echo Update completed: %date_str% %time_str% >> \"%logfile%\"",
   "echo User: %USERNAME% >> \"%logfile%\"",
   "echo Computer: %COMPUTERNAME% >> \"%logfile%\"",
   "echo Source: %source_dir% >> \"%logfile%\"",
   "echo Destination: %dest_dir% >> \"%logfile%\"",
   "echo Backup saved to: %current_backup% >> \"%logfile%\"",
   "echo ============================================ >> \"%logfile%\"",
   "echo. >> \"%logfile%\"",
   "",
   "echo.",
   "echo ============================================",
   "echo PROCESS COMPLETED SUCCESSFULLY",
   "echo ============================================",
   "echo Files copied from: %source_dir%",
   "echo Destination: %dest_dir%",
   "echo Backup saved to: %current_backup%",
   "echo Log saved to: %logfile%",
   "echo.",
   "exit /b 0",
   ""]

/-- The shared error path of the update script after the `:error` label. -/
def updateErrorTail : List String :=
  ["echo.",
   "echo ============================================",
   "echo ERROR: Process did not complete successfully",
   "echo ============================================",
   "echo Please review the error messages above",
   "echo.",
   "echo ============================================ >> \"%logfile%\"",
   "echo ERROR in update: %date_str% %time_str% >> \"%logfile%\"",
   "echo User: %USERNAME% >> \"%logfile%\"",
   "echo Computer: %COMPUTERNAME% >> \"%logfile%\"",
   "echo Process failed - review details >> \"%logfile%\"",
   "echo ============================================ >> \"%logfile%\"",
   "echo. >> \"%logfile%\"",
   "exit /b 1"]

/-- Structural safety of the generated restore script: the no-backups
guard precedes every line that wipes, recreates or writes the destination;
those destructive lines live strictly between the guard and the `:error`
label; the error path touches nothing, ends in `exit /b 1` and is reached
only through `goto :error`; the only success exit is `exit /b 0` before
the label; and every errorlevel guard jumps to the shared error path. -/
def RestoreStructureOk (staging destination : LocationConfig) (backup : BackupCfg) : Prop :=
  ∃ A B E : List String,
    generateRestoreBatLines staging destination backup =
      A ++ restoreNoBackupBlock ++ B ++ (":error" :: E) ∧
    gotoErrorLine ∈ restoreNoBackupBlock ∧
    rdDestLine ∈ B ∧ mkdirDestLine ∈ B ∧ restoreXcopyLine ∈ B ∧
    (∀ l ∈ A, touchesDestB l = false) ∧
    (∀ l ∈ A, isExitCmdB l = false) ∧
    (∀ l ∈ restoreNoBackupBlock, isExitCmdB l = false) ∧
    ":error" ∉ A ∧ ":error" ∉ restoreNoBackupBlock ∧ ":error" ∉ B ∧ ":error" ∉ E ∧
    (∀ l ∈ E, touchesDestB l = false) ∧
    (∀ l ∈ E, isGotoB l = false) ∧
    E.getLast? = some "exit /b 1" ∧
    (∀ l ∈ E, isExitCmdB l = true → l = "exit /b 1") ∧
    (∀ l ∈ B, isExitCmdB l = true → l = "exit /b 0") ∧
    (∀ l ∈ generateRestoreBatLines staging destination backup,
      isGotoB l = true → l = gotoErrorLine) ∧
    guardSafeB (generateRestoreBatLines staging destination backup) = true

/-- Structural safety of the generated update script: the backup step is
the only copy command before the spliced staged-to-destination copy
commands, which all come strictly after it; every errorlevel guard jumps
to the shared `:error` path; the only exit before the label is
`exit /b 0`, the error path ends in `exit /b 1`, and every goto targets
the shared label. -/
def UpdateStructureOk (staging destination : LocationConfig) (backup : BackupCfg)
    (sourceFolders : Option (List FolderSpec)) : Prop :=
  ∃ P S M E : List String,
    generateUpdateBatLines staging destination backup sourceFolders =
      P ++ generateCopyCommands staging.path destination.path sourceFolders ++ S ∧
    backupXcopyLine ∈ P ∧
    (∀ l ∈ P, isCopyCmdB l = true → l = backupXcopyLine) ∧
    (∀ l ∈ S, isCopyCmdB l = false) ∧
    generateUpdateBatLines staging destination backup sourceFolders = M ++ (":error" :: E) ∧
    ":error" ∉ M ∧ ":error" ∉ E ∧
    (∀ l ∈ M, isExitCmdB l = true → l = "exit /b 0") ∧
    (∀ l ∈ E, isExitCmdB l = true → l = "exit /b 1") ∧
    E.getLast? = some "exit /b 1" ∧
    (∀ l ∈ E, isGotoB l = false) ∧
    (∀ l ∈ generateUpdateBatLines staging destination backup sourceFolders,
      isGotoB l = true → l = gotoErrorLine) ∧
    guardSafeB (generateUpdateBatLines staging destination backup sourceFolders) = true

/-! ## Helper lemmas about string prefixes -/

/-- Taking at most the literal head of an appended string ignores the
appended tail. -/
theorem take_pre (pre s : String) (n : Nat) (h : n ≤ pre.data.length) :
    (pre ++ s).data.take n = pre.data.take n := by
  rw [String.data_append]
  exact List.take_append_of_le_length h

/-- A string whose literal head is not a prefix of `t` differs from `t`. -/
theorem ne_pre (pre s t : String) (h : ¬ pre.data <+: t.data) : pre ++ s ≠ t := by
  intro he
  apply h
  refine ⟨s.data, ?_⟩
  rw [← String.data_append, he]

/-! ## C5 -/

/-- C5: over an established session, `exec` rejects with the captured
stderr text exactly when the remote exit code is nonzero and the captured
stderr is nonempty; in every other case, nonzero exit with empty stderr
included, it resolves with the captured stdout. -/
theorem c5_exec_stderr_policy (code : Int) (outChunks errChunks : List String) :
    (∀ e, sshExec code outChunks errChunks = Except.error e ↔
      (code ≠ 0 ∧ String.join errChunks ≠ "" ∧ e = String.join errChunks)) ∧
    ((code = 0 ∨ String.join errChunks = "") →
      sshExec code outChunks errChunks = Except.ok (String.join outChunks)) := by
  have hmain : sshExec code outChunks errChunks =
      if code ≠ 0 ∧ String.join errChunks ≠ "" then Except.error (String.join errChunks)
      else Except.ok (String.join outChunks) := rfl
  by_cases hc : code ≠ 0 ∧ String.join errChunks ≠ ""
  · rw [hmain, if_pos hc]
    constructor
    · intro e
      constructor
      · intro he
        exact ⟨hc.1, hc.2, by injection he with h; exact h.symm⟩
      · intro ⟨_, _, he⟩
        rw [he]
    · intro h
      rcases h with h | h
      · exact absurd h hc.1
      · exact absurd h hc.2
  · rw [hmain, if_neg hc]
    constructor
    · intro e
      constructor
      · intro he
        exact absurd (by injection he) id
      · intro ⟨h1, h2, _⟩
        exact absurd ⟨h1, h2⟩ hc
    · intro _
      rfl

/-- Witness for C5 at a nonzero exit code with empty stderr. -/
theorem c5_exec_stderr_policy_witness :
    sshExec 5 ["out"] [] = Except.ok (String.join ["out"]) :=
  (c5_exec_stderr_policy 5 ["out"] []).2 (Or.inr rfl)

/-! ## C2 -/

/-- C2 counterexample: at stage outcomes whose first stage rejects,
`deployCommand` propagates the exception instead of returning a
`DeployResult`. -/
theorem c2_counterexample :
    deployCommand failingOutcomes = Except.error "Source folder does not exist: bin" ∧
    ¬ ∃ r, deployCommand failingOutcomes = Except.ok r := by
  refine ⟨rfl, ?_⟩
  rintro ⟨r, hr⟩
  rw [show deployCommand failingOutcomes =
    Except.error "Source folder does not exist: bin" from rfl] at hr
  exact absurd hr (by simp)

/-- The return value of `deployCommand` characterized: a result comes back
exactly when every fail-fast stage resolved, and it is then the record
with empty error list. -/
theorem deployCommand_ok_iff (o : StageOutcomes) (r : DeployResult) :
    deployCommand o = Except.ok r ↔ (allStagesOk o ∧ r = ⟨true, 0, []⟩) := by
  unfold deployCommand allStagesOk
  rcases o with ⟨ct, cp, ed, dc, tr, dz, ub, eu, cl⟩
  cases ct with
  | error m => simp [Except.isOk, Except.toBool]
  | ok a1 =>
  cases cp with
  | error m => simp [Except.isOk, Except.toBool]
  | ok a2 =>
  cases ed with
  | error m => simp [Except.isOk, Except.toBool]
  | ok a3 =>
  cases dc with
  | error m => simp [Except.isOk, Except.toBool]
  | ok a4 =>
  cases tr with
  | error m => simp [Except.isOk, Except.toBool]
  | ok a5 =>
  cases dz with
  | error m => simp [Except.isOk, Except.toBool]
  | ok a6 =>
  cases ub with
  | error m => simp [Except.isOk, Except.toBool]
  | ok a7 =>
  cases eu with
  | error m => simp [Except.isOk, Except.toBool]
  | ok a8 =>
  simp [Except.isOk, Except.toBool, eq_comm]

/-- C2 (amended): `deployCommand` returns a `DeployResult` exactly when
every fail-fast pipeline stage succeeded; on any stage failure it
propagates the exception to its caller instead.  Whenever it does return a
result, `success = errors.isEmpty()` holds (and the error list is then
empty, so `success` is true). -/
theorem c2_orchestrator_result (o : StageOutcomes) :
    ((∃ r, deployCommand o = Except.ok r) ↔ allStagesOk o) ∧
    (∀ r, deployCommand o = Except.ok r →
      r.success = r.errors.isEmpty ∧ r.errors = [] ∧ r.success = true) := by
  constructor
  · constructor
    · rintro ⟨r, hr⟩
      exact ((deployCommand_ok_iff o r).mp hr).1
    · intro h
      exact ⟨⟨true, 0, []⟩, (deployCommand_ok_iff o _).mpr ⟨h, rfl⟩⟩
  · intro r hr
    rw [((deployCommand_ok_iff o r).mp hr).2]
    exact ⟨rfl, rfl, rfl⟩

/-- Witness for C2 at all-successful stage outcomes. -/
theorem c2_orchestrator_result_witness :
    (⟨true, 0, []⟩ : DeployResult).success = (⟨true, 0, []⟩ : DeployResult).errors.isEmpty :=
  ((c2_orchestrator_result allOkOutcomes).2 ⟨true, 0, []⟩ rfl).1

/-! ## C10 -/

/-- C10: whenever `deployCommand` returns a `DeployResult`, its
`filesDeployed` field is `0`: the count resolved by the staging copy is
bound to `sourceFiles` and never written into the result. -/
theorem c10_filesDeployed_always_zero (o : StageOutcomes) (r : DeployResult)
    (h : deployCommand o = Except.ok r) : r.filesDeployed = 0 := by
  rw [((deployCommand_ok_iff o r).mp h).2]

/-- Witness for C10: even though the staging copy reported 42 files, the
returned result carries 0. -/
theorem c10_filesDeployed_always_zero_witness :
    (⟨true, 0, []⟩ : DeployResult).filesDeployed = 0 :=
  c10_filesDeployed_always_zero allOkOutcomes ⟨true, 0, []⟩ rfl

/-! ## C9 -/

/-- Reducing a lookup at the head of an association list. -/
theorem lookup_cons_of_eq {k k0 : String} {v0 : Nat} (rest : List (String × Nat))
    (hb : k = k0) : List.lookup k ((k0, v0) :: rest) = some v0 := by
  simp only [List.lookup]
  rw [show (k == k0) = true from by simp [hb]]

/-- Skipping the head of an association list on a key mismatch. -/
theorem lookup_cons_of_ne {k k0 : String} {v0 : Nat} (rest : List (String × Nat))
    (hb : k ≠ k0) : List.lookup k ((k0, v0) :: rest) = List.lookup k rest := by
  simp only [List.lookup]
  rw [show (k == k0) = false from by simp [hb]]

/-- Lookup in an association list extended on the right with a key that
was absent finds the new binding. -/
theorem lookup_append_single {l : List (String × Nat)} {k : String}
    (h : l.lookup k = none) (v : Nat) : (l ++ [(k, v)]).lookup k = some v := by
  induction l with
  | nil => simp [List.lookup]
  | cons p rest ih =>
    rcases p with ⟨k0, v0⟩
    by_cases hb : k = k0
    · rw [lookup_cons_of_eq rest hb] at h
      exact Option.noConfusion h
    · rw [lookup_cons_of_ne rest hb] at h
      rw [List.cons_append, lookup_cons_of_ne _ hb]
      exact ih h

/-- Lookup in an association list extended on the right with some other
key is unchanged. -/
theorem lookup_append_single_ne {l : List (String × Nat)} {k k1 : String}
    (h : k ≠ k1) (v : Nat) : (l ++ [(k1, v)]).lookup k = l.lookup k := by
  induction l with
  | nil =>
    rw [List.nil_append, lookup_cons_of_ne _ h]
  | cons p rest ih =>
    rcases p with ⟨k0, v0⟩
    by_cases hb : k = k0
    · rw [List.cons_append, lookup_cons_of_eq _ hb, lookup_cons_of_eq _ hb]
    · rw [List.cons_append, lookup_cons_of_ne _ hb, lookup_cons_of_ne _ hb]
      exact ih

/-- Cache invariant: a key is cached exactly when it has been requested,
and the number of opened sessions is the number of distinct requested
keys. -/
def CacheInv (st : ConnState) (seen : List String) : Prop :=
  (∀ k, (st.connections.lookup k).isSome = true ↔ k ∈ seen) ∧
    st.opened = seen.toFinset.card

/-- `ensureSSHConnection` on an ssh location with endpoint data. -/
theorem ensureSSH_ssh (p : String) (c : SSHCfgM) (st : ConnState) :
    ensureSSHConnection ⟨LocType.ssh, p, some c⟩ st =
      match st.connections.lookup (connKey c) with
      | some i => (some i, st)
      | none =>
        (some st.nextId,
          ⟨st.connections ++ [(connKey c, st.nextId)], st.nextId + 1, st.opened + 1⟩) := rfl

/-- `sshKeys` distributes over cons. -/
theorem sshKeys_cons (l : LocationConfig) (rest : List LocationConfig) :
    sshKeys (l :: rest) = sshKeys [l] ++ sshKeys rest := by
  rcases l with ⟨t, p, os⟩
  cases t <;> cases os <;> simp [sshKeys]

/-- One `ensureSSHConnection` call preserves the cache invariant. -/
theorem cacheInv_step (loc : LocationConfig) (st : ConnState) (seen : List String)
    (h : CacheInv st seen) :
    CacheInv (ensureSSHConnection loc st).2 (seen ++ sshKeys [loc]) := by
  rcases h with ⟨hmem, hcard⟩
  rcases loc with ⟨t, p, os⟩
  cases t with
  | «local» =>
    cases os with
    | none =>
      show CacheInv st (seen ++ [])
      rw [List.append_nil]
      exact ⟨hmem, hcard⟩
    | some c =>
      show CacheInv st (seen ++ [])
      rw [List.append_nil]
      exact ⟨hmem, hcard⟩
  | ssh =>
    cases os with
    | none =>
      show CacheInv st (seen ++ [])
      rw [List.append_nil]
      exact ⟨hmem, hcard⟩
    | some c =>
      have hkeys : sshKeys [(⟨LocType.ssh, p, some c⟩ : LocationConfig)] = [connKey c] := rfl
      rw [hkeys]
      rcases hl : st.connections.lookup (connKey c) with _ | i
      · have h2 : (ensureSSHConnection ⟨LocType.ssh, p, some c⟩ st).2 =
            ⟨st.connections ++ [(connKey c, st.nextId)], st.nextId + 1, st.opened + 1⟩ := by
          rw [ensureSSH_ssh, hl]
        rw [h2]
        have hkey : connKey c ∉ seen := by
          intro hin
          have hs := (hmem _).mpr hin
          rw [hl] at hs
          exact absurd hs (by simp)
        refine ⟨?_, ?_⟩
        · intro k
          show ((st.connections ++ [(connKey c, st.nextId)]).lookup k).isSome = true ↔
            k ∈ seen ++ [connKey c]
          by_cases hk : k = connKey c
          · rw [hk, lookup_append_single hl st.nextId]
            simp
          · rw [lookup_append_single_ne hk st.nextId]
            rw [hmem k]
            simp [hk]
        · show st.opened + 1 = (seen ++ [connKey c]).toFinset.card
          rw [hcard, List.toFinset_append]
          have hu : seen.toFinset ∪ ([connKey c] : List String).toFinset =
              insert (connKey c) seen.toFinset := by
            simp [Finset.union_comm, Finset.insert_eq]
          rw [hu, Finset.card_insert_of_not_mem (by simpa using hkey)]
      · have h2 : (ensureSSHConnection ⟨LocType.ssh, p, some c⟩ st).2 = st := by
          rw [ensureSSH_ssh, hl]
        rw [h2]
        have hkey : connKey c ∈ seen := by
          apply (hmem _).mp
          rw [hl]
          rfl
        refine ⟨?_, ?_⟩
        · intro k
          rw [hmem k]
          simp only [List.mem_append, List.mem_singleton]
          exact ⟨fun hk => Or.inl hk, fun hk => hk.elim id (fun he => he ▸ hkey)⟩
        · rw [hcard, List.toFinset_append]
          have hu : seen.toFinset ∪ ([connKey c] : List String).toFinset =
              insert (connKey c) seen.toFinset := by
            simp [Finset.union_comm, Finset.insert_eq]
          rw [hu, Finset.insert_eq_self.mpr (by simpa using hkey)]

/-- Running a call sequence preserves the cache invariant. -/
theorem cacheInv_run (locs : List LocationConfig) :
    ∀ st seen, CacheInv st seen →
      CacheInv (runEnsures locs st) (seen ++ sshKeys locs) := by
  induction locs with
  | nil =>
    intro st seen h
    simpa [runEnsures, sshKeys] using h
  | cons l rest ih =>
    intro st seen h
    have h1 := cacheInv_step l st seen h
    have h2 := ih _ _ h1
    rw [sshKeys_cons, ← List.append_assoc]
    exact h2

/-- C9: the session cache is keyed by `host:port` only.  Local locations
yield no session and leave the cache untouched; two ssh locations sharing
host and port share one session, the second call neither returning a new
session nor changing the cache; and over any call sequence starting from a
fresh service, the number of sessions opened is exactly the number of
distinct `host:port` keys requested. -/
theorem c9_session_cache_keyed_by_host_port :
    (∀ loc st, loc.type = LocType.local → ensureSSHConnection loc st = (none, st)) ∧
    (∀ (st : ConnState) (loc1 loc2 : LocationConfig) (c1 c2 : SSHCfgM),
      loc1.type = LocType.ssh → loc2.type = LocType.ssh →
      loc1.ssh = some c1 → loc2.ssh = some c2 →
      c1.host = c2.host → c1.port = c2.port →
      (ensureSSHConnection loc2 (ensureSSHConnection loc1 st).2).1 =
          (ensureSSHConnection loc1 st).1 ∧
        (ensureSSHConnection loc2 (ensureSSHConnection loc1 st).2).2 =
          (ensureSSHConnection loc1 st).2) ∧
    (∀ locs, (runEnsures locs initConnState).opened = (sshKeys locs).dedup.length) := by
  refine ⟨?_, ?_, ?_⟩
  · intro loc st h
    rcases loc with ⟨t, p, os⟩
    cases t with
    | «local» => cases os <;> rfl
    | ssh => exact absurd h (by simp)
  · intro st loc1 loc2 c1 c2 h1 h2 hs1 hs2 hh hp
    rcases loc1 with ⟨t1, p1, os1⟩
    rcases loc2 with ⟨t2, p2, os2⟩
    cases t1 with
    | «local» => exact absurd h1 (by simp)
    | ssh =>
    cases t2 with
    | «local» => exact absurd h2 (by simp)
    | ssh =>
    cases os1 with
    | none => exact Option.noConfusion hs1
    | some a1 =>
    cases os2 with
    | none => exact Option.noConfusion hs2
    | some a2 =>
    have ha1 : a1 = c1 := by injection hs1
    have ha2 : a2 = c2 := by injection hs2
    subst ha1 ha2
    have hkeq : connKey a2 = connKey a1 := by
      unfold connKey
      rw [hh, hp]
    rcases hl : st.connections.lookup (connKey a1) with _ | i
    · have hfst : ensureSSHConnection ⟨LocType.ssh, p1, some a1⟩ st =
          (some st.nextId,
            ⟨st.connections ++ [(connKey a1, st.nextId)], st.nextId + 1, st.opened + 1⟩) := by
        rw [ensureSSH_ssh, hl]
      rw [hfst]
      have hl2 : (st.connections ++ [(connKey a1, st.nextId)]).lookup (connKey a2) =
          some st.nextId := by
        rw [hkeq]
        exact lookup_append_single hl st.nextId
      rw [ensureSSH_ssh]
      rw [show (⟨st.connections ++ [(connKey a1, st.nextId)], st.nextId + 1, st.opened + 1⟩ :
        ConnState).connections = st.connections ++ [(connKey a1, st.nextId)] from rfl, hl2]
      exact ⟨rfl, rfl⟩
    · have hfst : ensureSSHConnection ⟨LocType.ssh, p1, some a1⟩ st = (some i, st) := by
        rw [ensureSSH_ssh, hl]
      rw [hfst]
      rw [ensureSSH_ssh, show (some i, st).2 = st from rfl, hkeq, hl]
      exact ⟨rfl, rfl⟩
  · intro locs
    have hinit : CacheInv initConnState [] := by
      refine ⟨?_, by simp [initConnState]⟩
      intro k
      simp [initConnState, List.lookup]
    have h := (cacheInv_run locs initConnState [] hinit).2
    rw [List.nil_append] at h
    rw [h, List.card_toFinset]

/-- Witness for C9: alice and bob at the same host and port share the one
cached session. -/
theorem c9_session_cache_witness :
    (ensureSSHConnection locRemB (ensureSSHConnection locRemA initConnState).2).1 =
      (ensureSSHConnection locRemA initConnState).1 :=
  (c9_session_cache_keyed_by_host_port.2.1 initConnState locRemA locRemB sshA sshB
    rfl rfl rfl rfl rfl rfl).1

/-! ## C3 -/

/-- C3: for a backup root listing with distinct entry names and any
retention `N ≥ 1`, rotation leaves exactly `min M N` backup entries
(`M` the number of listed `backup-` entries), every deleted entry is
strictly older (smaller in the lexicographic name order) than every
survivor — so the survivors are the `N` newest — and nothing is deleted
when `M ≤ N`. -/
theorem c3_rotation_keeps_min (files : List String) (N : Nat)
    (h1 : 1 ≤ N) (hnd : files.Nodup) :
    (rotateSurvivors files N).length = min (getBackupsList files).length N ∧
    (∀ d ∈ rotateDeleted files N, ∀ s ∈ rotateSurvivors files N, d < s) ∧
    ((getBackupsList files).length ≤ N → rotateDeleted files N = []) := by
  have hndB : (getBackupsList files).Nodup := hnd.filter _
  by_cases hle : (getBackupsList files).length ≤ N
  · have hdel : rotateDeleted files N = [] := by
      unfold rotateDeleted
      rw [if_pos hle]
    refine ⟨?_, ?_, fun _ => hdel⟩
    · unfold rotateSurvivors
      simp only [hdel]
      rw [List.filter_eq_self.mpr (by intro a _; simp)]
      rw [Nat.min_eq_left hle]
    · intro d hd
      rw [hdel] at hd
      exact absurd hd (List.not_mem_nil d)
  · have hlt : N < (getBackupsList files).length := Nat.lt_of_not_le hle
    have hperm : (List.insertionSort (fun a b => a ≤ b) (getBackupsList files)).Perm
        (getBackupsList files) := List.perm_insertionSort _ _
    have hsort : (List.insertionSort (fun a b => a ≤ b) (getBackupsList files)).Sorted
        (fun a b => a ≤ b) := List.sorted_insertionSort _ _
    have hndL : (List.insertionSort (fun a b => a ≤ b) (getBackupsList files)).Nodup :=
      hperm.nodup_iff.mpr hndB
    have hlen : (List.insertionSort (fun a b => a ≤ b) (getBackupsList files)).length =
        (getBackupsList files).length := hperm.length_eq
    have hdel : rotateDeleted files N =
        (List.insertionSort (fun a b => a ≤ b) (getBackupsList files)).take
          ((getBackupsList files).length - N) := by
      unfold rotateDeleted
      rw [if_neg hle]
    have htd := List.take_append_drop ((getBackupsList files).length - N)
      (List.insertionSort (fun a b => a ≤ b) (getBackupsList files))
    rw [← htd] at hsort hndL
    obtain ⟨-, -, hcross⟩ := List.pairwise_append.mp hsort
    obtain ⟨-, -, hdisj⟩ := List.nodup_append.mp hndL
    have hsurv : rotateSurvivors files N =
        (getBackupsList files).filter (fun b => b ∉ rotateDeleted files N) := rfl
    have hpermf : (rotateSurvivors files N).Perm
        ((List.insertionSort (fun a b => a ≤ b) (getBackupsList files)).filter
          (fun b => b ∉ rotateDeleted files N)) := by
      rw [hsurv]
      exact (hperm.filter _).symm
    have hfil : (List.insertionSort (fun a b => a ≤ b) (getBackupsList files)).filter
        (fun b => b ∉ rotateDeleted files N) =
        (List.insertionSort (fun a b => a ≤ b) (getBackupsList files)).drop
          ((getBackupsList files).length - N) := by
      conv_lhs => rw [← htd]
      rw [List.filter_append]
      rw [List.filter_eq_nil_iff.mpr (by
        intro a ha
        simp only [hdel, decide_not]
        simpa using ha)]
      rw [List.filter_eq_self.mpr (by
        intro a ha
        simp only [hdel, decide_not]
        simpa using fun hmm => hdisj hmm ha)]
      rw [List.nil_append]
    refine ⟨?_, ?_, fun hc => absurd hc hle⟩
    · rw [hpermf.length_eq, hfil, List.length_drop, hlen, Nat.min_eq_right (Nat.le_of_lt hlt)]
      omega
    · intro d hd s hs
      have hsL : s ∈ (List.insertionSort (fun a b => a ≤ b) (getBackupsList files)).drop
          ((getBackupsList files).length - N) := by
        rw [← hfil]
        rw [List.mem_filter]
        rw [hsurv] at hs
        rw [List.mem_filter] at hs
        exact ⟨(hperm.mem_iff).mpr hs.1, hs.2⟩
      have hdL : d ∈ (List.insertionSort (fun a b => a ≤ b) (getBackupsList files)).take
          ((getBackupsList files).length - N) := by
        rw [hdel] at hd
        exact hd
      have hle' : d ≤ s := hcross d hdL s hsL
      have hne : d ≠ s := by
        intro he
        exact hdisj hdL (he ▸ hsL)
      exact lt_of_le_of_ne hle' hne

/-- Witness for C3: four listed entries, three of them backups, retention
two: two newest survive, the oldest is deleted. -/
theorem c3_rotation_keeps_min_witness :
    (rotateSurvivors ["backup-2025-01-01", "backup-2025-01-03", "update.log",
        "backup-2025-01-02"] 2).length =
      min (getBackupsList ["backup-2025-01-01", "backup-2025-01-03", "update.log",
        "backup-2025-01-02"]).length 2 ∧
    (∀ d ∈ rotateDeleted ["backup-2025-01-01", "backup-2025-01-03", "update.log",
        "backup-2025-01-02"] 2,
      ∀ s ∈ rotateSurvivors ["backup-2025-01-01", "backup-2025-01-03", "update.log",
        "backup-2025-01-02"] 2, d < s) ∧
    ((getBackupsList ["backup-2025-01-01", "backup-2025-01-03", "update.log",
        "backup-2025-01-02"]).length ≤ 2 →
      rotateDeleted ["backup-2025-01-01", "backup-2025-01-03", "update.log",
        "backup-2025-01-02"] 2 = []) :=
  c3_rotation_keeps_min _ 2 (by decide) (by decide)

/-! ## C8 -/

/-- Membership after deleting a single entry. -/
theorem mem_removeEntry {fs : List FSEntry} {p : FPath} {e : FSEntry} :
    e ∈ removeEntry fs p ↔ e ∈ fs ∧ e.path ≠ p := by
  unfold removeEntry
  rw [List.mem_filter]
  constructor
  · rintro ⟨h1, h2⟩
    refine ⟨h1, fun he => ?_⟩
    rw [he] at h2
    simp at h2
  · rintro ⟨h1, h2⟩
    refine ⟨h1, ?_⟩
    simp [h2]

/-- Membership after deleting a whole subtree. -/
theorem mem_removeSubtree {fs : List FSEntry} {p : FPath} {e : FSEntry} :
    e ∈ removeSubtree fs p ↔ e ∈ fs ∧ ¬ (p <+: e.path) := by
  unfold removeSubtree
  rw [List.mem_filter]
  constructor
  · rintro ⟨h1, h2⟩
    refine ⟨h1, fun he => ?_⟩
    rw [(@List.isPrefixOf_iff_prefix _ _ _ p e.path).mpr he] at h2
    simp at h2
  · rintro ⟨h1, h2⟩
    refine ⟨h1, ?_⟩
    rw [show p.isPrefixOf e.path = false from by
      rcases hb : p.isPrefixOf e.path with _ | _
      · rfl
      · exact absurd (List.isPrefixOf_iff_prefix.mp hb) h2]
    rfl

/-- A path extended by one segment is not a prefix of the base path. -/
theorem not_snoc_prefix_self (p : FPath) (n : String) : ¬ ((p ++ [n]) <+: p) := by
  intro h
  have := h.length_le
  simp at this

/-- Prefixes factor through a one-segment extension. -/
theorem prefix_of_snoc {p : FPath} {n : String} {q : FPath}
    (h : (p ++ [n]) <+: q) : p <+: q := by
  rcases h with ⟨t, ht⟩
  exact ⟨[n] ++ t, by rw [← ht, List.append_assoc]⟩

/-- A fold whose step only removes entries yields a subset. -/
theorem foldl_subset_of (step : List FSEntry → String → List FSEntry)
    (hstep : ∀ f n e, e ∈ step f n → e ∈ f) :
    ∀ (kids : List String) (fs : List FSEntry) (e : FSEntry),
      e ∈ kids.foldl step fs → e ∈ fs := by
  intro kids
  induction kids with
  | nil => exact fun fs e h => h
  | cons k rest ih => exact fun fs e h => hstep _ _ _ (ih _ _ h)

/-- A fold whose step keeps every entry satisfying `P` keeps them all. -/
theorem foldl_keeps_of (step : List FSEntry → String → List FSEntry) (P : FSEntry → Prop)
    (hstep : ∀ f n e, e ∈ f → P e → e ∈ step f n) :
    ∀ (kids : List String) (fs : List FSEntry) (e : FSEntry),
      e ∈ fs → P e → e ∈ kids.foldl step fs := by
  intro kids
  induction kids with
  | nil => exact fun fs e h _ => h
  | cons k rest ih => exact fun fs e h hp => ih _ _ (hstep _ _ _ h hp) hp

/-- A fold whose step removes the entry named by its segment, and never
adds entries, leaves no entry at any processed segment. -/
theorem foldl_kills_of (step : List FSEntry → String → List FSEntry) (p : FPath)
    (hsub : ∀ f n e, e ∈ step f n → e ∈ f)
    (hkill : ∀ f n e, e ∈ step f n → e.path ≠ p ++ [n]) :
    ∀ (kids : List String) (fs : List FSEntry) (n0 : String), n0 ∈ kids →
      ∀ e, e ∈ kids.foldl step fs → e.path ≠ p ++ [n0] := by
  intro kids
  induction kids with
  | nil =>
    intro fs n0 h
    exact absurd h (List.not_mem_nil _)
  | cons k rest ih =>
    intro fs n0 hmem e he
    rcases List.mem_cons.mp hmem with rfl | hr
    · exact hkill _ _ _ (foldl_subset_of step hsub rest _ e he)
    · exact ih _ n0 hr e he

/-- Unfolding `deleteDirFuel` at positive fuel. -/
theorem deleteDirFuel_succ (n : Nat) (p : FPath) (fs : List FSEntry) :
    deleteDirFuel (n + 1) p fs =
      removeEntry ((readdirNames fs p).foldl (fun f x =>
        if (statIsDir f (p ++ [x])).getD false then deleteDirFuel n (p ++ [x]) f
        else removeEntry f (p ++ [x])) fs) p := rfl

/-- `deleteDir` only removes entries. -/
theorem deleteDirFuel_subset : ∀ (fuel : Nat) (p : FPath) (fs : List FSEntry) (e : FSEntry),
    e ∈ deleteDirFuel fuel p fs → e ∈ fs := by
  intro fuel
  induction fuel with
  | zero => exact fun p fs e h => h
  | succ n ih =>
    intro p fs e h
    rw [deleteDirFuel_succ] at h
    have h1 := (mem_removeEntry.mp h).1
    refine foldl_subset_of _ ?_ _ _ _ h1
    intro f x e' he'
    by_cases hd : (statIsDir f (p ++ [x])).getD false = true
    · rw [if_pos hd] at he'
      exact ih _ _ _ he'
    · rw [if_neg hd] at he'
      exact (mem_removeEntry.mp he').1

/-- `deleteDir` keeps every entry outside the deleted subtree. -/
theorem deleteDirFuel_keeps : ∀ (fuel : Nat) (p : FPath) (fs : List FSEntry) (e : FSEntry),
    e ∈ fs → ¬ (p <+: e.path) → e ∈ deleteDirFuel fuel p fs := by
  intro fuel
  induction fuel with
  | zero => exact fun p fs e h _ => h
  | succ n ih =>
    intro p fs e he hp
    rw [deleteDirFuel_succ]
    refine mem_removeEntry.mpr ⟨?_, fun hep => hp (hep ▸ List.prefix_rfl)⟩
    refine foldl_keeps_of _ (fun e' => ¬ (p <+: e'.path)) ?_ _ _ _ he hp
    intro f x e' he' hp'
    by_cases hd : (statIsDir f (p ++ [x])).getD false = true
    · rw [if_pos hd]
      exact ih _ _ _ he' (fun hpre => hp' (prefix_of_snoc hpre))
    · rw [if_neg hd]
      exact mem_removeEntry.mpr ⟨he', fun hep => hp' (hep ▸ List.prefix_append p [x])⟩

/-- At positive fuel, `deleteDir` leaves no entry at the deleted path. -/
theorem deleteDirFuel_target (n : Nat) (p : FPath) (fs : List FSEntry) (e : FSEntry)
    (h : e ∈ deleteDirFuel (n + 1) p fs) : e.path ≠ p := by
  rw [deleteDirFuel_succ] at h
  exact (mem_removeEntry.mp h).2

/-- An entry sitting at one segment below `p` contributes its name to the
directory listing of `p`. -/
theorem contrib_of_path {p : FPath} {e : FSEntry} {n : String} (h : e.path = p ++ [n]) :
    (if p.isPrefixOf e.path then
      match e.path.drop p.length with
      | [m] => some m
      | _ => none
    else none) = some n := by
  rw [h, if_pos (List.isPrefixOf_iff_prefix.mpr (List.prefix_append p [n])), List.drop_left]

/-- Shared shape of both `deleteContents` branches: folding a
child-deleting step over the listed children keeps the root entry and
empties the listing. -/
theorem branch_spec (step : List FSEntry → String → List FSEntry) (root : FPath)
    (hsub : ∀ f n e, e ∈ step f n → e ∈ f)
    (hkeep : ∀ f n e, e ∈ f → ¬ ((root ++ [n]) <+: e.path) → e ∈ step f n)
    (hkill : ∀ f n e, e ∈ step f n → e.path ≠ root ++ [n])
    (fs : List FSEntry) (h : pathExistsFS fs root = true) :
    pathExistsFS ((readdirNames fs root).foldl step fs) root = true ∧
    readdirNames ((readdirNames fs root).foldl step fs) root = [] := by
  constructor
  · rcases List.any_eq_true.mp h with ⟨e, he, hbe⟩
    have hpe : e.path = root := by simpa using hbe
    refine List.any_eq_true.mpr ⟨e, ?_, hbe⟩
    refine foldl_keeps_of step (fun e' => e'.path = root) ?_ _ _ _ he hpe
    intro f n e' he' hp'
    refine hkeep _ _ _ he' ?_
    rw [hp']
    exact not_snoc_prefix_self root n
  · rw [show readdirNames ((readdirNames fs root).foldl step fs) root =
      ((readdirNames fs root).foldl step fs).filterMap (fun e =>
        if root.isPrefixOf e.path then
          match e.path.drop root.length with
          | [m] => some m
          | _ => none
        else none) from rfl]
    refine List.filterMap_eq_nil_iff.mpr ?_
    intro e hefold
    have hefs : e ∈ fs := foldl_subset_of step hsub _ _ _ hefold
    by_cases hp : root.isPrefixOf e.path = true
    · rcases hdrop : e.path.drop root.length with _ | ⟨n, tail⟩
      · rw [if_pos hp]
      · rcases tail with _ | ⟨m, rest⟩
        · rcases List.isPrefixOf_iff_prefix.mp hp with ⟨t, ht⟩
          have htt : t = [n] := by
            rw [← ht, List.drop_left] at hdrop
            exact hdrop
          have hpath : e.path = root ++ [n] := by
            rw [← ht, htt]
          have hn : n ∈ readdirNames fs root :=
            List.mem_filterMap.mpr ⟨e, hefs, contrib_of_path hpath⟩
          exact absurd hpath
            (foldl_kills_of step root hsub hkill _ _ n hn e hefold)
        · rw [if_pos hp]
    · rw [if_neg hp]

/-- The fold shape of `deleteSSHContents`. -/
theorem deleteSSHContents_eq (p : FPath) (fs : List FSEntry) :
    deleteSSHContents p fs = (readdirNames fs p).foldl (fun f n =>
      if (statIsDir f (p ++ [n])).getD false then deleteDir (p ++ [n]) f
      else removeEntry f (p ++ [n])) fs := rfl

/-- The fold shape of `deleteLocalContents` on an existing directory. -/
theorem deleteLocalContents_pos (p : FPath) (fs : List FSEntry)
    (h : pathExistsFS fs p = true) :
    deleteLocalContents p fs =
      (readdirNames fs p).foldl (fun f n => removeSubtree f (p ++ [n])) fs := by
  unfold deleteLocalContents
  rw [if_pos h]

/-- Step properties of the local branch. -/
theorem localStep_props (root : FPath) :
    (∀ f n e, e ∈ removeSubtree f (root ++ [n]) → e ∈ f) ∧
    (∀ f n e, e ∈ f → ¬ ((root ++ [n]) <+: e.path) → e ∈ removeSubtree f (root ++ [n])) ∧
    (∀ f n e, e ∈ removeSubtree f (root ++ [n]) → e.path ≠ root ++ [n]) := by
  refine ⟨?_, ?_, ?_⟩
  · exact fun f n e h => (mem_removeSubtree.mp h).1
  · exact fun f n e h hp => mem_removeSubtree.mpr ⟨h, hp⟩
  · intro f n e h hp
    exact (mem_removeSubtree.mp h).2 (hp ▸ List.prefix_rfl)

/-- Step properties of the ssh branch. -/
theorem sshStep_props (root : FPath) :
    (∀ f n e, e ∈ (if (statIsDir f (root ++ [n])).getD false then deleteDir (root ++ [n]) f
        else removeEntry f (root ++ [n])) → e ∈ f) ∧
    (∀ f n e, e ∈ f → ¬ ((root ++ [n]) <+: e.path) →
      e ∈ (if (statIsDir f (root ++ [n])).getD false then deleteDir (root ++ [n]) f
        else removeEntry f (root ++ [n]))) ∧
    (∀ f n e, e ∈ (if (statIsDir f (root ++ [n])).getD false then deleteDir (root ++ [n]) f
        else removeEntry f (root ++ [n])) → e.path ≠ root ++ [n]) := by
  refine ⟨?_, ?_, ?_⟩
  · intro f n e h
    by_cases hd : (statIsDir f (root ++ [n])).getD false = true
    · rw [if_pos hd] at h
      exact deleteDirFuel_subset _ _ _ _ h
    · rw [if_neg hd] at h
      exact (mem_removeEntry.mp h).1
  · intro f n e h hp
    by_cases hd : (statIsDir f (root ++ [n])).getD false = true
    · rw [if_pos hd]
      exact deleteDirFuel_keeps _ _ _ _ h hp
    · rw [if_neg hd]
      exact mem_removeEntry.mpr ⟨h, fun hep => hp (hep ▸ List.prefix_rfl)⟩
  · intro f n e h
    by_cases hd : (statIsDir f (root ++ [n])).getD false = true
    · rw [if_pos hd] at h
      exact deleteDirFuel_target _ _ _ _ h
    · rw [if_neg hd] at h
      exact (mem_removeEntry.mp h).2

/-- Either branch of `deleteContents` on a root whose listing is already
empty changes nothing. -/
theorem deleteContentsM_of_empty (t : LocType) (root : FPath) (fs : List FSEntry)
    (h1 : pathExistsFS fs root = true) (h2 : readdirNames fs root = []) :
    deleteContentsM t root fs = fs := by
  cases t with
  | «local» =>
    show deleteLocalContents root fs = fs
    unfold deleteLocalContents
    rw [if_pos h1, h2]
    rfl
  | ssh =>
    show deleteSSHContents root fs = fs
    rw [deleteSSHContents_eq, h2]
    rfl

/-- C8: `deleteContents` on an existing root (of either location kind)
keeps the root entry, removes every immediate child, and a second call on
the result changes nothing; on a root that does not exist (no entry at or
below it) it is a no-op. -/
theorem c8_deleteContents_spec (t : LocType) (fs : List FSEntry) (root : FPath) :
    (pathExistsFS fs root = true →
      pathExistsFS (deleteContentsM t root fs) root = true ∧
      readdirNames (deleteContentsM t root fs) root = [] ∧
      deleteContentsM t root (deleteContentsM t root fs) = deleteContentsM t root fs) ∧
    ((∀ e ∈ fs, ¬ (root <+: e.path)) → deleteContentsM t root fs = fs) := by
  cases t with
  | «local» =>
    constructor
    · intro h
      have hspec := branch_spec (fun f n => removeSubtree f (root ++ [n])) root
        (localStep_props root).1 (localStep_props root).2.1 (localStep_props root).2.2 fs h
      have heq : deleteContentsM LocType.local root fs =
          (readdirNames fs root).foldl (fun f n => removeSubtree f (root ++ [n])) fs := by
        show deleteLocalContents root fs = _
        exact deleteLocalContents_pos root fs h
      refine ⟨?_, ?_, ?_⟩
      · rw [heq]
        exact hspec.1
      · rw [heq]
        exact hspec.2
      · refine deleteContentsM_of_empty _ _ _ ?_ ?_
        · rw [heq]
          exact hspec.1
        · rw [heq]
          exact hspec.2
    · intro hdesc
      have hfalse : pathExistsFS fs root = false := by
        refine List.any_eq_false.mpr ?_
        intro e he hbe
        have hpe : e.path = root := by simpa using hbe
        exact hdesc e he (hpe ▸ List.prefix_rfl)
      show deleteLocalContents root fs = fs
      unfold deleteLocalContents
      rw [hfalse]
      rfl
  | ssh =>
    have hnames : (∀ e ∈ fs, ¬ (root <+: e.path)) → readdirNames fs root = [] := by
      intro hl
      refine List.filterMap_eq_nil_iff.mpr ?_
      intro e he
      rw [if_neg ?_]
      intro hp
      exact hl e he (List.isPrefixOf_iff_prefix.mp hp)
    constructor
    · intro h
      have hspec := branch_spec (fun f n =>
          if (statIsDir f (root ++ [n])).getD false then deleteDir (root ++ [n]) f
          else removeEntry f (root ++ [n])) root
        (sshStep_props root).1 (sshStep_props root).2.1 (sshStep_props root).2.2 fs h
      have heq : deleteContentsM LocType.ssh root fs =
          (readdirNames fs root).foldl (fun f n =>
            if (statIsDir f (root ++ [n])).getD false then deleteDir (root ++ [n]) f
            else removeEntry f (root ++ [n])) fs := by
        show deleteSSHContents root fs = _
        exact deleteSSHContents_eq root fs
      refine ⟨?_, ?_, ?_⟩
      · rw [heq]
        exact hspec.1
      · rw [heq]
        exact hspec.2
      · refine deleteContentsM_of_empty _ _ _ ?_ ?_
        · rw [heq]
          exact hspec.1
        · rw [heq]
          exact hspec.2
    · intro hdesc
      show deleteSSHContents root fs = fs
      rw [deleteSSHContents_eq, hnames hdesc]
      rfl

/-- Witness for C8 at a five-entry filesystem with an existing root and at
a missing root. -/
theorem c8_deleteContents_spec_witness :
    (pathExistsFS (deleteContentsM LocType.local ["root"] sampleFS) ["root"] = true ∧
      readdirNames (deleteContentsM LocType.local ["root"] sampleFS) ["root"] = [] ∧
      deleteContentsM LocType.local ["root"]
          (deleteContentsM LocType.local ["root"] sampleFS) =
        deleteContentsM LocType.local ["root"] sampleFS) ∧
    deleteContentsM LocType.ssh ["absent"] sampleFS = sampleFS :=
  ⟨(c8_deleteContents_spec LocType.local sampleFS ["root"]).1 (by decide),
   (c8_deleteContents_spec LocType.ssh sampleFS ["absent"]).2 (by decide)⟩

/-! ## C4 -/

/-- File loop, empty list. -/
theorem copyFilesLoop_nil (E : FSEnv) (source dest : LocationConfig) (sfp dfp : String) :
    copyFilesLoop E source dest sfp dfp [] = ([], Except.ok 0) := rfl

/-- File loop, head file present. -/
theorem copyFilesLoop_cons_pos (E : FSEnv) (source dest : LocationConfig) (sfp dfp f : String)
    (rest : List String)
    (hf : E.pathExistsAt source.type (typeJoin source.type sfp f) = true) :
    copyFilesLoop E source dest sfp dfp (f :: rest) =
      (CopyOp.single (typeJoin source.type sfp f) (typeJoin dest.type dfp f) ::
          (copyFilesLoop E source dest sfp dfp rest).1,
        (copyFilesLoop E source dest sfp dfp rest).2.map (fun x => x + 1)) := by
  simp [copyFilesLoop, hf]

/-- File loop, head file missing. -/
theorem copyFilesLoop_cons_neg (E : FSEnv) (source dest : LocationConfig) (sfp dfp f : String)
    (rest : List String)
    (hf : E.pathExistsAt source.type (typeJoin source.type sfp f) = false) :
    copyFilesLoop E source dest sfp dfp (f :: rest) =
      ([], Except.error ("Source file does not exist: " ++ typeJoin source.type sfp f)) := by
  simp [copyFilesLoop, hf]

/-- The file loop resolves when every enumerated file exists. -/
theorem copyFilesLoop_ok (E : FSEnv) (source dest : LocationConfig) (sfp dfp : String) :
    ∀ (files : List String),
      (∀ f ∈ files, E.pathExistsAt source.type (typeJoin source.type sfp f) = true) →
      ∃ ops n, copyFilesLoop E source dest sfp dfp files = (ops, Except.ok n) := by
  intro files
  induction files with
  | nil => exact fun _ => ⟨[], 0, rfl⟩
  | cons f rest ih =>
    intro h
    obtain ⟨ops, n, hr⟩ := ih (fun g hg => h g (List.mem_cons_of_mem f hg))
    exact ⟨CopyOp.single (typeJoin source.type sfp f) (typeJoin dest.type dfp f) :: ops, n + 1, by
      rw [copyFilesLoop_cons_pos E source dest sfp dfp f rest (h f (List.mem_cons_self f rest)),
        hr]
      rfl⟩

/-- The file loop aborts at the first missing file, naming it, after
copying exactly the earlier files. -/
theorem copyFilesLoop_err (E : FSEnv) (source dest : LocationConfig) (sfp dfp : String) :
    ∀ (preF : List String) (f : String) (postF : List String),
      (∀ g ∈ preF, E.pathExistsAt source.type (typeJoin source.type sfp g) = true) →
      E.pathExistsAt source.type (typeJoin source.type sfp f) = false →
      ∃ ops, copyFilesLoop E source dest sfp dfp (preF ++ f :: postF) =
        (ops, Except.error ("Source file does not exist: " ++ typeJoin source.type sfp f)) := by
  intro preF
  induction preF with
  | nil =>
    intro f postF _ hf
    exact ⟨[], copyFilesLoop_cons_neg E source dest sfp dfp f postF hf⟩
  | cons g rest ih =>
    intro f postF hpre hf
    obtain ⟨ops, hr⟩ := ih f postF (fun x hx => hpre x (List.mem_cons_of_mem g hx)) hf
    exact ⟨CopyOp.single (typeJoin source.type sfp g) (typeJoin dest.type dfp g) :: ops, by
      rw [List.cons_append,
        copyFilesLoop_cons_pos E source dest sfp dfp g (rest ++ f :: postF)
          (hpre g (List.mem_cons_self g rest)), hr]
      rfl⟩

/-- `copySpecificFiles` when the destination folder verification
succeeds. -/
theorem copySpecificFiles_dir_ok (E : FSEnv) (source dest : LocationConfig)
    (folderName : String) (files : List String)
    (hd : ensureDirE E { dest with path := locJoin dest folderName } = Except.ok ()) :
    copySpecificFiles E source dest folderName files =
      copyFilesLoop E source dest (locJoin source folderName) (locJoin dest folderName) files := by
  simp [copySpecificFiles, hd]

/-- A succeeding `isOk` verification is the unit resolution. -/
theorem ensureDirE_ok_of_isOk {E : FSEnv} {loc : LocationConfig}
    (h : (ensureDirE E loc).isOk = true) : ensureDirE E loc = Except.ok () := by
  rcases he : ensureDirE E loc with m | u
  · rw [he] at h
    exact absurd h (by simp [Except.isOk, Except.toBool])
  · cases u
    rfl

/-- Pairs loop, empty list. -/
theorem pairsLoop_nil (E : FSEnv) (source dest : LocationConfig) :
    pairsLoop E source dest [] = ([], Except.ok 0) := rfl

/-- Pairs loop, head folder missing. -/
theorem pairsLoop_cons_nofolder (E : FSEnv) (source dest : LocationConfig)
    (fn : String) (fl : List String) (rest : List (String × List String))
    (hf : E.pathExistsAt source.type (locJoin source fn) = false) :
    pairsLoop E source dest ((fn, fl) :: rest) =
      ([], Except.error ("Source folder does not exist: " ++ locJoin source fn)) := by
  simp [pairsLoop, hf]

/-- Pairs loop, head folder present and inner copy failing. -/
theorem pairsLoop_cons_err (E : FSEnv) (source dest : LocationConfig)
    (fn : String) (fl : List String) (rest : List (String × List String))
    (ops1 : List CopyOp) (m : String)
    (hf : E.pathExistsAt source.type (locJoin source fn) = true)
    (hc : copySpecificFiles E source dest fn fl = (ops1, Except.error m)) :
    pairsLoop E source dest ((fn, fl) :: rest) = (ops1, Except.error m) := by
  simp [pairsLoop, hf, hc]

/-- Pairs loop, head folder present and inner copy resolving. -/
theorem pairsLoop_cons_ok (E : FSEnv) (source dest : LocationConfig)
    (fn : String) (fl : List String) (rest : List (String × List String))
    (ops1 : List CopyOp) (n1 : Nat)
    (hf : E.pathExistsAt source.type (locJoin source fn) = true)
    (hc : copySpecificFiles E source dest fn fl = (ops1, Except.ok n1)) :
    pairsLoop E source dest ((fn, fl) :: rest) =
      (ops1 ++ (pairsLoop E source dest rest).1,
        (pairsLoop E source dest rest).2.map (fun x => n1 + x)) := by
  simp [pairsLoop, hf, hc]

/-- Mapping over a resolved count. -/
theorem exmap_ok (f : Nat → Nat) (n : Nat) :
    Except.map f (Except.ok n : Except String Nat) = Except.ok (f n) := rfl

/-- Mapping over a rejection. -/
theorem exmap_err (f : Nat → Nat) (m : String) :
    Except.map f (Except.error m : Except String Nat) = Except.error m := rfl

/-- The pairs loop resolves when every pair is valid. -/
theorem pairsLoop_ok (E : FSEnv) (source dest : LocationConfig) :
    ∀ (entries : List (String × List String)),
      (∀ pr ∈ entries, pairValid E source dest pr) →
      ∃ ops n, pairsLoop E source dest entries = (ops, Except.ok n) := by
  intro entries
  induction entries with
  | nil => exact fun _ => ⟨[], 0, rfl⟩
  | cons pr rest ih =>
    intro h
    rcases pr with ⟨fn, fl⟩
    obtain ⟨hfold, hdir, hfiles⟩ := h (fn, fl) (List.mem_cons_self _ rest)
    obtain ⟨ops1, n1, h1⟩ : ∃ ops n,
        copySpecificFiles E source dest fn fl = (ops, Except.ok n) := by
      rw [copySpecificFiles_dir_ok E source dest fn fl (ensureDirE_ok_of_isOk hdir)]
      exact copyFilesLoop_ok E source dest _ _ fl hfiles
    obtain ⟨ops2, n2, h2⟩ := ih (fun q hq => h q (List.mem_cons_of_mem _ hq))
    refine ⟨ops1 ++ ops2, n1 + n2, ?_⟩
    rw [pairsLoop_cons_ok E source dest fn fl rest ops1 n1 hfold h1, h2]
    rfl

/-- `runSel` resolves on a valid selector. -/
theorem runSel_ok_of_valid (E : FSEnv) (source dest : LocationConfig) (s : FolderSpec)
    (h : selValid E source dest s) :
    ∃ ops n, runSel E source dest s = (ops, Except.ok n) := by
  cases s with
  | whole n =>
    have hx : E.pathExistsAt source.type (locJoin source n) = true := h
    refine ⟨[CopyOp.tree (locJoin source n) (locJoin dest n)], E.countAt (locJoin source n), ?_⟩
    show copyWholeFolder E source dest n = _
    simp [copyWholeFolder, hx]
  | filesMap entries => exact pairsLoop_ok E source dest entries h

/-- `runSels` over selectors that are all valid. -/
theorem runSels_ok_of_valid (E : FSEnv) (source dest : LocationConfig) :
    ∀ (sels : List FolderSpec),
      (∀ s ∈ sels, selValid E source dest s) →
      ∃ ops n, runSels E source dest sels = (ops, Except.ok n) := by
  intro sels
  induction sels with
  | nil => exact fun _ => ⟨[], 0, rfl⟩
  | cons s rest ih =>
    intro h
    obtain ⟨ops1, n1, h1⟩ := runSel_ok_of_valid E source dest s (h s (List.mem_cons_self s rest))
    obtain ⟨ops2, n2, h2⟩ := ih (fun q hq => h q (List.mem_cons_of_mem _ hq))
    refine ⟨ops1 ++ ops2, n1 + n2, ?_⟩
    simp [runSels, h1, h2, exmap_ok]

/-- `runSels` over a cons whose head selector aborts. -/
theorem runSels_cons_err (E : FSEnv) (source dest : LocationConfig) (s : FolderSpec)
    (rest : List FolderSpec) (ops1 : List CopyOp) (m : String)
    (hs : runSel E source dest s = (ops1, Except.error m)) :
    runSels E source dest (s :: rest) = (ops1, Except.error m) := by
  simp [runSels, hs]

/-- `runSels` over an append whose left part resolves. -/
theorem runSels_append_ok (E : FSEnv) (source dest : LocationConfig) :
    ∀ (A B : List FolderSpec) (ops1 : List CopyOp) (n1 : Nat),
      runSels E source dest A = (ops1, Except.ok n1) →
      runSels E source dest (A ++ B) =
        (ops1 ++ (runSels E source dest B).1,
          (runSels E source dest B).2.map (fun n2 => n1 + n2)) := by
  intro A
  induction A with
  | nil =>
    intro B ops1 n1 h
    rw [show runSels E source dest [] = ([], Except.ok 0) from rfl] at h
    injection h with hA hB
    injection hB with hB
    subst hA
    subst hB
    rw [List.nil_append, List.nil_append]
    rcases hr : runSels E source dest B with ⟨ops2, r2⟩
    cases r2 with
    | error m => rfl
    | ok n2 => rw [exmap_ok, Nat.zero_add]
  | cons s A' ih =>
    intro B ops1 n1 h
    rcases hs : runSel E source dest s with ⟨opsa, ra⟩
    cases ra with
    | error m =>
      rw [runSels_cons_err E source dest s A' opsa m hs] at h
      injection h with hA hB
      exact absurd hB (by simp)

    | ok na =>
      have hcons : runSels E source dest (s :: A') =
          (opsa ++ (runSels E source dest A').1,
            (runSels E source dest A').2.map (fun x => na + x)) := by
        simp [runSels, hs]
      rw [hcons] at h
      rcases hA' : runSels E source dest A' with ⟨opsb, rb⟩
      rw [hA'] at h
      cases rb with
      | error m =>
        injection h with h1 h2
        exact absurd h2 (by simp [exmap_err])
      | ok nb =>
        injection h with h1 h2
        have h2' : na + nb = n1 := by
          simpa [exmap_ok] using h2
        have h1' : opsa ++ opsb = ops1 := by
          simpa using h1
        have hstep := ih B opsb nb hA'
        rw [List.cons_append]
        have hcons2 : runSels E source dest (s :: (A' ++ B)) =
            (opsa ++ (runSels E source dest (A' ++ B)).1,
              (runSels E source dest (A' ++ B)).2.map (fun x => na + x)) := by
          simp [runSels, hs]
        rw [hcons2, hstep]
        rcases hB : runSels E source dest B with ⟨opsc, rc⟩
        cases rc with
        | error m =>
          show (opsa ++ (opsb ++ opsc), Except.map (fun x => na + x)
              (Except.map (fun n2 => nb + n2) (Except.error m))) =
            (ops1 ++ opsc, Except.map (fun n2 => n1 + n2) (Except.error m))
          rw [exmap_err, exmap_err, exmap_err, ← List.append_assoc, h1']
        | ok nc =>
          show (opsa ++ (opsb ++ opsc), Except.map (fun x => na + x)
              (Except.map (fun n2 => nb + n2) (Except.ok nc))) =
            (ops1 ++ opsc, Except.map (fun n2 => n1 + n2) (Except.ok nc))
          rw [exmap_ok, exmap_ok, exmap_ok, ← List.append_assoc, h1']
          rw [show na + (nb + nc) = n1 + nc from by omega]

/-- The pairs loop over an append: a resolving left part, then a failing
right part, gives the concatenated operations and the failure. -/
theorem pairsLoop_append_err (E : FSEnv) (source dest : LocationConfig) :
    ∀ (A X : List (String × List String)) (opsA : List CopyOp) (nA : Nat)
      (opsX : List CopyOp) (m : String),
      pairsLoop E source dest A = (opsA, Except.ok nA) →
      pairsLoop E source dest X = (opsX, Except.error m) →
      pairsLoop E source dest (A ++ X) = (opsA ++ opsX, Except.error m) := by
  intro A
  induction A with
  | nil =>
    intro X opsA nA opsX m hA hX
    rw [pairsLoop_nil] at hA
    injection hA with h1 h2
    subst h1
    rw [List.nil_append, List.nil_append]
    exact hX
  | cons pr rest ih =>
    intro X opsA nA opsX m hA hX
    rcases pr with ⟨fn, fl⟩
    by_cases hfold : E.pathExistsAt source.type (locJoin source fn) = true
    · rcases hc : copySpecificFiles E source dest fn fl with ⟨opsc, rc⟩
      cases rc with
      | error mc =>
        rw [pairsLoop_cons_err E source dest fn fl rest opsc mc hfold hc] at hA
        injection hA with h1 h2
        exact absurd h2 (by simp)
      | ok nc =>
        rw [pairsLoop_cons_ok E source dest fn fl rest opsc nc hfold hc] at hA
        rcases hrest : pairsLoop E source dest rest with ⟨opsr, rr⟩
        rw [hrest] at hA
        cases rr with
        | error mr =>
          injection hA with h1 h2
          exact absurd h2 (by simp [exmap_err])
        | ok nr =>
          injection hA with h1 h2
          have h1' : opsc ++ opsr = opsA := by
            simpa using h1
          rw [List.cons_append,
            pairsLoop_cons_ok E source dest fn fl (rest ++ X) opsc nc hfold hc,
            ih X opsr nr opsX m hrest hX]
          show (opsc ++ (opsr ++ opsX),
              Except.map (fun x => nc + x) (Except.error m)) = (opsA ++ opsX, Except.error m)
          rw [exmap_err, ← List.append_assoc, h1']
    · rw [pairsLoop_cons_nofolder E source dest fn fl rest
        (by rcases hb : E.pathExistsAt source.type (locJoin source fn) with _ | _
            · rfl
            · exact absurd hb hfold)] at hA
      injection hA with h1 h2
      exact absurd h2 (by simp)

/-- A first-failing selector aborts with its missing-path message. -/
theorem runSel_err_of_fail (E : FSEnv) (source dest : LocationConfig) (s : FolderSpec)
    (m : String) (h : SelFirstFail E source dest s m) :
    ∃ ops, runSel E source dest s = (ops, Except.error m) := by
  cases h with
  | whole n hx =>
    refine ⟨[], ?_⟩
    show copyWholeFolder E source dest n = _
    simp [copyWholeFolder, hx]
  | file preE fn fl postE preF f postF hpre hfolder hdest hsplit hpreF hf =>
    obtain ⟨opsF, hFL⟩ := copyFilesLoop_err E source dest (locJoin source fn)
      (locJoin dest fn) preF f postF hpreF hf
    have hcsf : copySpecificFiles E source dest fn fl =
        (opsF, Except.error ("Source file does not exist: " ++
          typeJoin source.type (locJoin source fn) f)) := by
      rw [copySpecificFiles_dir_ok E source dest fn fl (ensureDirE_ok_of_isOk hdest), hsplit]
      exact hFL
    obtain ⟨opsP, nP, hP⟩ := pairsLoop_ok E source dest preE hpre
    have hhead := pairsLoop_cons_err E source dest fn fl postE opsF _ hfolder hcsf
    exact ⟨opsP ++ opsF, pairsLoop_append_err E source dest preE ((fn, fl) :: postE)
      opsP nP opsF _ hP hhead⟩

/-- C4: if the selectors before `bad` are all valid and `bad` is a
whole-folder selector whose folder is missing at the source, or an
enumerated-files selector naming a missing file, then the selector copy
runs the earlier selectors, fails with the message naming the missing
path, and performs no operation of any later selector: the overall result
is exactly the operations of `pre` and of the failed selector, with the
failure. -/
theorem c4_missing_selector_aborts (E : FSEnv) (source dest : LocationConfig)
    (pre : List FolderSpec) (bad : FolderSpec) (post : List FolderSpec) (m : String)
    (hpre : ∀ s ∈ pre, selValid E source dest s)
    (hbad : SelFirstFail E source dest bad m) :
    ∃ opsPre nPre opsBad,
      runSels E source dest pre = (opsPre, Except.ok nPre) ∧
      runSel E source dest bad = (opsBad, Except.error m) ∧
      runSels E source dest (pre ++ bad :: post) = (opsPre ++ opsBad, Except.error m) ∧
      ∃ p, (m = "Source folder does not exist: " ++ p ∨
            m = "Source file does not exist: " ++ p) ∧
        E.pathExistsAt source.type p = false := by
  obtain ⟨opsPre, nPre, hP⟩ := runSels_ok_of_valid E source dest pre hpre
  obtain ⟨opsBad, hB⟩ := runSel_err_of_fail E source dest bad m hbad
  refine ⟨opsPre, nPre, opsBad, hP, hB, ?_, ?_⟩
  · rw [runSels_append_ok E source dest pre (bad :: post) opsPre nPre hP,
      runSels_cons_err E source dest bad post opsBad m hB]
    rfl
  · cases hbad with
    | whole n hx => exact ⟨locJoin source n, Or.inl rfl, hx⟩
    | file preE fn fl postE preF f postF hpre2 hfolder hdest hsplit hpreF hf =>
      exact ⟨typeJoin source.type (locJoin source fn) f, Or.inr rfl, hf⟩

/-- Witness for C4: a valid whole-folder selector, then an enumerated
selector naming the missing `app.xml`, then a later selector that is
never processed. -/
theorem c4_missing_selector_aborts_witness :
    ∃ opsPre nPre opsBad,
      runSels envMissingXml locSrc locDest [FolderSpec.whole "wwwroot"] =
        (opsPre, Except.ok nPre) ∧
      runSel envMissingXml locSrc locDest
          (FolderSpec.filesMap [("bin", ["app.dll", "app.xml"])]) =
        (opsBad, Except.error ("Source file does not exist: " ++
          typeJoin locSrc.type (locJoin locSrc "bin") "app.xml")) ∧
      runSels envMissingXml locSrc locDest
          ([FolderSpec.whole "wwwroot"] ++
            FolderSpec.filesMap [("bin", ["app.dll", "app.xml"])] ::
              [FolderSpec.whole "other"]) =
        (opsPre ++ opsBad, Except.error ("Source file does not exist: " ++
          typeJoin locSrc.type (locJoin locSrc "bin") "app.xml")) ∧
      ∃ p, (("Source file does not exist: " ++
              typeJoin locSrc.type (locJoin locSrc "bin") "app.xml") =
            "Source folder does not exist: " ++ p ∨
            ("Source file does not exist: " ++
              typeJoin locSrc.type (locJoin locSrc "bin") "app.xml") =
            "Source file does not exist: " ++ p) ∧
        envMissingXml.pathExistsAt locSrc.type p = false :=
  c4_missing_selector_aborts envMissingXml locSrc locDest [FolderSpec.whole "wwwroot"]
    (FolderSpec.filesMap [("bin", ["app.dll", "app.xml"])]) [FolderSpec.whole "other"] _
    (by
      intro s hs
      rw [List.mem_singleton] at hs
      subst hs
      show envMissingXml.pathExistsAt locSrc.type (locJoin locSrc "wwwroot") = true
      decide)
    (SelFirstFail.file [] "bin" ["app.dll", "app.xml"] [] ["app.dll"] "app.xml" []
      (by intro pr hp; exact absurd hp (List.not_mem_nil _))
      (by decide)
      (by decide)
      rfl
      (by
        intro g hg
        rw [List.mem_singleton] at hg
        subst hg
        decide)
      (by decide))

/-! ## C7 -/

/-- The add-if-missing fold keeps every existing element. -/
theorem foldl_addif_mem : ∀ (l : List FPath) (d : List FPath) (q : FPath), q ∈ d →
    q ∈ l.foldl (fun d2 q2 => if q2 ∈ d2 then d2 else d2 ++ [q2]) d := by
  intro l
  induction l with
  | nil => exact fun d q h => h
  | cons y rest ih =>
    intro d q hq
    apply ih
    show q ∈ (if y ∈ d then d else d ++ [y])
    by_cases hy : y ∈ d
    · rw [if_pos hy]
      exact hq
    · rw [if_neg hy]
      exact List.mem_append_left _ hq

/-- The add-if-missing fold contains every folded element. -/
theorem foldl_addif_mem_of_elem : ∀ (l : List FPath) (d : List FPath) (x : FPath), x ∈ l →
    x ∈ l.foldl (fun d2 q2 => if q2 ∈ d2 then d2 else d2 ++ [q2]) d := by
  intro l
  induction l with
  | nil =>
    intro d x h
    exact absurd h (List.not_mem_nil _)
  | cons y rest ih =>
    intro d x hx
    rcases List.mem_cons.mp hx with rfl | hr
    · rw [List.foldl_cons]
      apply foldl_addif_mem
      show x ∈ (if x ∈ d then d else d ++ [x])
      by_cases hy : x ∈ d
      · rw [if_pos hy]
        exact hy
      · rw [if_neg hy]
        exact List.mem_append_right _ (List.mem_singleton_self x)
    · exact ih _ x hr

/-- Recursive mkdir keeps every existing directory. -/
theorem sshMkdirRec_superset (dirs : List FPath) (p : FPath) :
    ∀ q ∈ dirs, q ∈ sshMkdirRec dirs p :=
  fun q hq => foldl_addif_mem _ dirs q hq

/-- Recursive mkdir creates the full path. -/
theorem mem_sshMkdirRec_self (dirs : List FPath) (p : FPath) (h : p ≠ []) :
    p ∈ sshMkdirRec dirs p := by
  apply foldl_addif_mem_of_elem
  have hpos : 0 < p.length := List.length_pos.mpr h
  refine List.mem_map.mpr ⟨p.length - 1, List.mem_range.mpr (by omega), ?_⟩
  rw [show p.length - 1 + 1 = p.length from by omega, List.take_length]

/-- Recursive upload succeeds whenever the current remote directory
exists, creating destination subdirectories as it encounters them; the
directory set only grows. -/
theorem uploadDirectory_ok : ∀ (k : Nat) (entries : List FNode), sizeOf entries ≤ k →
    ∀ (p : FPath) (dirs : List FPath), p ∈ dirs →
      ∃ c dirs2, uploadDirectory entries p dirs = Except.ok (c, dirs2) ∧
        ∀ q ∈ dirs, q ∈ dirs2 := by
  intro k
  induction k with
  | zero =>
    intro entries h p dirs hp
    cases entries with
    | nil => exact ⟨0, dirs, by simp [uploadDirectory], fun q hq => hq⟩
    | cons e rest =>
      exfalso
      simp at h
  | succ n ih =>
    intro entries h p dirs hp
    cases entries with
    | nil => exact ⟨0, dirs, by simp [uploadDirectory], fun q hq => hq⟩
    | cons e rest =>
      cases e with
      | file nm =>
        have hok : sshUploadFileOk dirs (p ++ [nm]) = true := by
          unfold sshUploadFileOk
          rw [List.dropLast_concat]
          exact decide_eq_true hp
        obtain ⟨c, dirs2, hrec, hsub⟩ := ih rest (by simp at h; omega) p dirs hp
        refine ⟨c + 1, dirs2, ?_, hsub⟩
        simp [uploadDirectory, hok, hrec]
      | dir nm cs =>
        have hm1 : p ++ [nm] ∈ sshMkdirRec dirs (p ++ [nm]) :=
          mem_sshMkdirRec_self dirs (p ++ [nm]) (by simp)
        have hsup1 : ∀ q ∈ dirs, q ∈ sshMkdirRec dirs (p ++ [nm]) :=
          sshMkdirRec_superset dirs (p ++ [nm])
        obtain ⟨c1, dirs2, hrec1, hsub2⟩ := ih cs (by simp at h; omega)
          (p ++ [nm]) (sshMkdirRec dirs (p ++ [nm])) hm1
        obtain ⟨c2, dirs3, hrec2, hsub3⟩ := ih rest (by simp at h; omega) p dirs2
          (hsub2 p (hsup1 p hp))
        refine ⟨c1 + c2, dirs3, ?_, fun q hq => hsub3 q (hsub2 q (hsup1 q hq))⟩
        simp [uploadDirectory, hrec1, hrec2]

/-- C7 counterexample: the selector-driven enumerated-files copy does not
create the missing destination folder below the root; it fails, even
though the source file exists. -/
theorem c7_counterexample :
    copySpecificFiles envMissingDestBin locSrc locDest "bin" ["app.dll"] =
      ([], Except.error "Directory does not exist: E:/dest/bin") ∧
    envMissingDestBin.pathExistsAt LocType.local "C:/source/bin/app.dll" = true :=
  ⟨rfl, rfl⟩

/-- C7 (amended): the recursive upload strategy creates destination
subdirectories lazily as encountered, so it succeeds when only the
destination root exists beforehand; the enumerated-files selector copy
instead verifies the destination folder (`ensureDir` verifies, it does
not create) and fails with a missing-directory error when that folder
does not pre-exist. -/
theorem c7_lazy_subdir_creation_amended :
    (∀ (entries : List FNode) (p : FPath) (dirs : List FPath),
      p ∈ dirs →
      ∃ c dirs2, uploadDirectory entries p dirs = Except.ok (c, dirs2) ∧
        ∀ q ∈ dirs, q ∈ dirs2) ∧
    (∀ (E : FSEnv) (source dest : LocationConfig) (folderName : String)
      (files : List String),
      dest.type = LocType.local →
      E.pathExistsAt LocType.local (locJoin dest folderName) = false →
      copySpecificFiles E source dest folderName files =
        ([], Except.error ("Directory does not exist: " ++ locJoin dest folderName))) := by
  constructor
  · intro entries p dirs hp
    exact uploadDirectory_ok (sizeOf entries) entries (Nat.le_refl _) p dirs hp
  · intro E source dest folderName files ht hmiss
    rcases dest with ⟨dt, dp, dssh⟩
    simp only at ht
    subst ht
    have hdir : ensureDirE E ⟨LocType.local, locJoin ⟨LocType.local, dp, dssh⟩ folderName,
        dssh⟩ = Except.error ("Directory does not exist: " ++
          locJoin ⟨LocType.local, dp, dssh⟩ folderName) := by
      show (if E.pathExistsAt LocType.local (locJoin ⟨LocType.local, dp, dssh⟩ folderName) = true
        then Except.ok () else Except.error _) = _
      rw [if_neg (by rw [hmiss]; exact Bool.false_ne_true)]
    show (match ensureDirE E ⟨LocType.local, locJoin ⟨LocType.local, dp, dssh⟩ folderName,
        dssh⟩ with
      | Except.error m => (([] : List CopyOp), Except.error m)
      | Except.ok _ => copyFilesLoop E source ⟨LocType.local, dp, dssh⟩
          (locJoin source folderName) (locJoin ⟨LocType.local, dp, dssh⟩ folderName) files) = _
    rw [hdir]

/-- Witness for C7 at a two-folder tree uploaded into a bare destination
root, and at a local destination missing the selector folder. -/
theorem c7_lazy_subdir_creation_amended_witness :
    (∃ c dirs2, uploadDirectory sampleTree ["dest"] [["dest"]] = Except.ok (c, dirs2) ∧
      ∀ q ∈ [["dest"]], q ∈ dirs2) ∧
    copySpecificFiles envMissingDestBin locSrc locDest "bin" ["app.dll"] =
      ([], Except.error ("Directory does not exist: " ++ locJoin locDest "bin")) :=
  ⟨c7_lazy_subdir_creation_amended.1 sampleTree ["dest"] [["dest"]] (by decide),
   c7_lazy_subdir_creation_amended.2 envMissingDestBin locSrc locDest "bin" ["app.dll"]
     rfl (by decide)⟩

/-! ## C6 -/

/-- A line with a non-matching literal head touches no destination
line. -/
theorem touchesDestB_pre (pre s : String)
    (h1 : ¬ pre.data <+: rdDestLine.data)
    (h2 : ¬ pre.data <+: mkdirDestLine.data)
    (h3 : ¬ pre.data <+: restoreXcopyLine.data) :
    touchesDestB (pre ++ s) = false := by
  unfold touchesDestB
  rw [beq_eq_false_iff_ne.mpr (ne_pre pre s _ h1),
    beq_eq_false_iff_ne.mpr (ne_pre pre s _ h2),
    beq_eq_false_iff_ne.mpr (ne_pre pre s _ h3)]
  rfl

/-- A line whose literal head is not `exit ` is no exit command. -/
theorem isExitCmdB_pre (pre s : String) (h : 5 ≤ pre.data.length)
    (h2 : (pre.data.take 5 == "exit ".data) = false) :
    isExitCmdB (pre ++ s) = false := by
  unfold isExitCmdB
  rw [take_pre pre s 5 h]
  exact h2

/-- A line whose literal head is not `goto ` is no goto command. -/
theorem isGotoB_pre (pre s : String) (h : 5 ≤ pre.data.length)
    (h2 : (pre.data.take 5 == "goto ".data) = false) :
    isGotoB (pre ++ s) = false := by
  unfold isGotoB
  rw [take_pre pre s 5 h]
  exact h2

/-- Goto-classification implication for lines with a non-goto head. -/
theorem goto_imp_pre (pre s : String) (h : 5 ≤ pre.data.length)
    (h2 : (pre.data.take 5 == "goto ".data) = false) :
    isGotoB (pre ++ s) = true → pre ++ s = gotoErrorLine := by
  intro hg
  rw [isGotoB_pre pre s h h2] at hg
  exact absurd hg (by simp)

/-- Exit-classification implication for lines with a non-exit head. -/
theorem exit_imp_pre (pre s t : String) (h : 5 ≤ pre.data.length)
    (h2 : (pre.data.take 5 == "exit ".data) = false) :
    isExitCmdB (pre ++ s) = true → pre ++ s = t := by
  intro hg
  rw [isExitCmdB_pre pre s h h2] at hg
  exact absurd hg (by simp)

/-- A line whose literal head rules out both copy forms is no copy
command. -/
theorem isCopyCmdB_pre (pre s : String) (h8 : 8 ≤ pre.data.length)
    (h1 : (pre.data.take 6 == "xcopy ".data) = false)
    (h2 : (pre.data.take 8 == "copy /y ".data) = false) :
    isCopyCmdB (pre ++ s) = false := by
  unfold isCopyCmdB
  rw [take_pre pre s 6 (by omega), take_pre pre s 8 h8, h1, h2]
  rfl

/-- Copy-classification implication for lines with a non-copy head. -/
theorem copy_imp_pre (pre s t : String) (h8 : 8 ≤ pre.data.length)
    (h1 : (pre.data.take 6 == "xcopy ".data) = false)
    (h2 : (pre.data.take 8 == "copy /y ".data) = false) :
    isCopyCmdB (pre ++ s) = true → pre ++ s = t := by
  intro hg
  rw [isCopyCmdB_pre pre s h8 h1 h2] at hg
  exact absurd hg (by simp)

/-- Extending a guard-safe list by a safe head line. -/
theorem guardSafeB_cons (l : String) (rest : List String)
    (h : l ≠ guardLine ∨ rest[3]? = some gotoErrorLine)
    (hrest : guardSafeB rest = true) : guardSafeB (l :: rest) = true := by
  show ((l != guardLine || rest[3]? == some gotoErrorLine) && guardSafeB rest) = true
  rw [Bool.and_eq_true, Bool.or_eq_true]
  refine ⟨?_, hrest⟩
  rcases h with h | h
  · exact Or.inl (bne_iff_ne.mpr h)
  · exact Or.inr (beq_iff_eq.mpr h)

/-- Guard safety is preserved under append: a guard resolved inside the
left list stays resolved, the right list is unchanged. -/
theorem guardSafeB_append : ∀ {A B : List String},
    guardSafeB A = true → guardSafeB B = true → guardSafeB (A ++ B) = true := by
  intro A
  induction A with
  | nil =>
    intro B _ hB
    exact hB
  | cons l rest ih =>
    intro B hA hB
    have hA' : ((l != guardLine || rest[3]? == some gotoErrorLine) && guardSafeB rest) = true := hA
    rw [Bool.and_eq_true] at hA'
    rcases hA' with ⟨h1, h2⟩
    rw [List.cons_append]
    show ((l != guardLine || (rest ++ B)[3]? == some gotoErrorLine) &&
      guardSafeB (rest ++ B)) = true
    rw [Bool.and_eq_true]
    refine ⟨?_, ih h2 hB⟩
    rw [Bool.or_eq_true] at h1 ⊢
    rcases h1 with h1 | h1
    · exact Or.inl h1
    · right
      have h3 : rest[3]? = some gotoErrorLine := beq_iff_eq.mp h1
      have hlt : 3 < rest.length := by
        rcases Nat.lt_or_ge 3 rest.length with hh | hh
        · exact hh
        · rw [List.getElem?_eq_none hh] at h3
          exact absurd h3 (by simp)
      rw [List.getElem?_append_left hlt]
      exact beq_iff_eq.mpr h3

/-- C6: in every generated restore script, the no-backups guard jumps to
the shared error path, every line that wipes, recreates or writes the
destination sits strictly between that guard and the `:error` label, the
error path touches the destination in no way and exits with code 1, the
only exit before the label is the success exit 0, every goto targets the
shared label, and every errorlevel guard jumps there on failure. -/
theorem c6_restore_no_backup_fails_before_wipe (staging destination : LocationConfig)
    (backup : BackupCfg) : RestoreStructureOk staging destination backup := by
  unfold RestoreStructureOk
  refine ⟨restoreHeadLines destination.path backup.path
      (toBackslashes (pathJoinLocal staging.path "restore.log")),
    restoreMidLines, restoreErrorTail, rfl, by decide, by decide, by decide, by decide,
    ?_, ?_, by decide, ?_, by decide, by decide, by decide, by decide, by decide,
    by decide, by decide, by decide, ?_, ?_⟩
  · simp only [restoreHeadLines, List.forall_mem_cons]
    refine ⟨by decide, by decide, by decide, ?_, ?_, ?_, by decide, by decide, by decide,
      by decide⟩
    · exact touchesDestB_pre _ _ (by decide) (by decide) (by decide)
    · exact touchesDestB_pre _ _ (by decide) (by decide) (by decide)
    · exact touchesDestB_pre _ _ (by decide) (by decide) (by decide)
  · simp only [restoreHeadLines, List.forall_mem_cons]
    refine ⟨by decide, by decide, by decide, ?_, ?_, ?_, by decide, by decide, by decide,
      by decide⟩
    · exact isExitCmdB_pre _ _ (by decide) (by decide)
    · exact isExitCmdB_pre _ _ (by decide) (by decide)
    · exact isExitCmdB_pre _ _ (by decide) (by decide)
  · intro hmem
    have hball : ∀ l ∈ restoreHeadLines destination.path backup.path
        (toBackslashes (pathJoinLocal staging.path "restore.log")), l ≠ ":error" := by
      simp only [restoreHeadLines, List.forall_mem_cons]
      refine ⟨by decide, by decide, by decide, ?_, ?_, ?_, by decide, by decide, by decide,
        by decide⟩
      · exact ne_pre _ _ _ (by decide)
      · exact ne_pre _ _ _ (by decide)
      · exact ne_pre _ _ _ (by decide)
    exact hball _ hmem rfl
  · intro l hl
    rw [show generateRestoreBatLines staging destination backup =
      restoreHeadLines destination.path backup.path
        (toBackslashes (pathJoinLocal staging.path "restore.log")) ++
        (restoreNoBackupBlock ++ (restoreMidLines ++ (":error" :: restoreErrorTail)))
      from rfl] at hl
    rcases List.mem_append.mp hl with hA | hrest
    · have hball : ∀ x ∈ restoreHeadLines destination.path backup.path
          (toBackslashes (pathJoinLocal staging.path "restore.log")),
          isGotoB x = true → x = gotoErrorLine := by
        simp only [restoreHeadLines, List.forall_mem_cons]
        refine ⟨by decide, by decide, by decide, ?_, ?_, ?_, by decide, by decide, by decide,
          by decide⟩
        · exact goto_imp_pre _ _ (by decide) (by decide)
        · exact goto_imp_pre _ _ (by decide) (by decide)
        · exact goto_imp_pre _ _ (by decide) (by decide)
      exact hball l hA
    · exact (by decide : ∀ x ∈ restoreNoBackupBlock ++ (restoreMidLines ++
        (":error" :: restoreErrorTail)), isGotoB x = true → x = gotoErrorLine) l hrest
  · rw [show generateRestoreBatLines staging destination backup =
      restoreHeadLines destination.path backup.path
        (toBackslashes (pathJoinLocal staging.path "restore.log")) ++
        (restoreNoBackupBlock ++ (restoreMidLines ++ (":error" :: restoreErrorTail)))
      from rfl]
    refine guardSafeB_append ?_ (by decide)
    simp only [restoreHeadLines]
    refine guardSafeB_cons _ _ (Or.inl (by decide)) ?_
    refine guardSafeB_cons _ _ (Or.inl (by decide)) ?_
    refine guardSafeB_cons _ _ (Or.inl (by decide)) ?_
    refine guardSafeB_cons _ _ (Or.inl (ne_pre _ _ _ (by decide))) ?_
    refine guardSafeB_cons _ _ (Or.inl (ne_pre _ _ _ (by decide))) ?_
    refine guardSafeB_cons _ _ (Or.inl (ne_pre _ _ _ (by decide))) ?_
    refine guardSafeB_cons _ _ (Or.inl (by decide)) ?_
    refine guardSafeB_cons _ _ (Or.inl (by decide)) ?_
    refine guardSafeB_cons _ _ (Or.inl (by decide)) ?_
    decide

/-- Witness for C6 at a concrete staging, destination and backup
configuration. -/
theorem c6_restore_no_backup_fails_before_wipe_witness :
    RestoreStructureOk locStaging locDest bkCfg :=
  c6_restore_no_backup_fails_before_wipe locStaging locDest bkCfg

/-! ## C1 -/

/-- The update suffix decomposes at the `:error` label. -/
theorem updateSuffix_split :
    updateSuffix = updateSuffixMain ++ (":error" :: updateErrorTail) := rfl

/-- Facts shared by every parametric copy-command line with the given
literal head: it is not the error label, not an exit command, and any goto
form it could take is the shared `goto :error`. -/
theorem copyLineFacts_pre (pre s : String) (h5 : 5 ≤ pre.data.length)
    (hx : ¬ pre.data <+: (":error").data)
    (he : (pre.data.take 5 == "exit ".data) = false)
    (hg : (pre.data.take 5 == "goto ".data) = false) :
    pre ++ s ≠ ":error" ∧ isExitCmdB (pre ++ s) = false ∧
      (isGotoB (pre ++ s) = true → pre ++ s = gotoErrorLine) :=
  ⟨ne_pre pre s _ hx, isExitCmdB_pre pre s h5 he, goto_imp_pre pre s h5 hg⟩

/-- Every line of a per-selector copy chunk is neither the error label nor
an exit command, and its only goto form is `goto :error`. -/
theorem copyChunk_facts (sourceDir destDir : String) (sp : FolderSpec) :
    ∀ l ∈ copyCmdsForSpec sourceDir destDir sp,
      l ≠ ":error" ∧ isExitCmdB l = false ∧ (isGotoB l = true → l = gotoErrorLine) := by
  intro l hl
  cases sp with
  | whole f =>
    simp only [copyCmdsForSpec, List.mem_cons, List.not_mem_nil, or_false] at hl
    rcases hl with rfl | rfl | rfl | rfl | rfl | rfl | rfl
    · rw [String.append_assoc]
      exact copyLineFacts_pre _ _ (by decide) (by decide) (by decide) (by decide)
    · exact ⟨by decide, by decide, by decide⟩
    · exact copyLineFacts_pre _ _ (by decide) (by decide) (by decide) (by decide)
    · exact ⟨by decide, by decide, by decide⟩
    · exact copyLineFacts_pre _ _ (by decide) (by decide) (by decide) (by decide)
    · exact ⟨by decide, by decide, by decide⟩
    · exact ⟨by decide, by decide, by decide⟩
  | filesMap entries =>
    simp only [copyCmdsForSpec] at hl
    rw [List.mem_flatMap] at hl
    obtain ⟨pr, -, hl⟩ := hl
    rw [List.mem_cons] at hl
    rcases hl with rfl | hl
    · exact copyLineFacts_pre _ _ (by decide) (by decide) (by decide) (by decide)
    · rw [List.mem_flatMap] at hl
      obtain ⟨file, -, hl⟩ := hl
      simp only [List.mem_cons, List.not_mem_nil, or_false] at hl
      rcases hl with rfl | rfl | rfl | rfl | rfl | rfl | rfl
      · exact copyLineFacts_pre _ _ (by decide) (by decide) (by decide) (by decide)
      · exact ⟨by decide, by decide, by decide⟩
      · exact copyLineFacts_pre _ _ (by decide) (by decide) (by decide) (by decide)
      · exact ⟨by decide, by decide, by decide⟩
      · exact copyLineFacts_pre _ _ (by decide) (by decide) (by decide) (by decide)
      · exact ⟨by decide, by decide, by decide⟩
      · exact ⟨by decide, by decide, by decide⟩

/-- Without selectors the copy-command generator ignores the distinction
between `none` and an empty list. -/
theorem copyCmds_some_nil (sourceDir destDir : String) :
    generateCopyCommands sourceDir destDir (some []) =
      generateCopyCommands sourceDir destDir none := rfl

/-- Facts for every line of the default copy-everything block. -/
theorem copyCmds_default_facts (sourceDir destDir : String) :
    ∀ l ∈ generateCopyCommands sourceDir destDir none,
      l ≠ ":error" ∧ isExitCmdB l = false ∧ (isGotoB l = true → l = gotoErrorLine) := by
  intro l hl
  rw [show generateCopyCommands sourceDir destDir none =
    [("for /d %%D in (\"" ++ (sourceDir ++ "\\*\") do (")),
     ("xcopy \"%%D\\*\" \"" ++ (destDir ++ "\\%%~nxD\\\" /E /I /Y /Q")),
     ")",
     ("for %%F in (\"" ++ (sourceDir ++ "\\*\") do (")),
     ("if /i not \"%%~xF\"==\".bat\" copy /y \"%%F\" \"" ++ (destDir ++ "\\\"")),
     ")"] from rfl] at hl
  simp only [List.mem_cons, List.not_mem_nil, or_false] at hl
  rcases hl with rfl | rfl | rfl | rfl | rfl | rfl
  · exact copyLineFacts_pre _ _ (by decide) (by decide) (by decide) (by decide)
  · exact copyLineFacts_pre _ _ (by decide) (by decide) (by decide) (by decide)
  · exact ⟨by decide, by decide, by decide⟩
  · exact copyLineFacts_pre _ _ (by decide) (by decide) (by decide) (by decide)
  · exact copyLineFacts_pre _ _ (by decide) (by decide) (by decide) (by decide)
  · exact ⟨by decide, by decide, by decide⟩

/-- Facts for every line of the spliced copy commands, in all selector
shapes. -/
theorem copyCmds_facts (sourceDir destDir : String)
    (folders : Option (List FolderSpec)) :
    ∀ l ∈ generateCopyCommands sourceDir destDir folders,
      l ≠ ":error" ∧ isExitCmdB l = false ∧ (isGotoB l = true → l = gotoErrorLine) := by
  cases folders with
  | none => exact copyCmds_default_facts sourceDir destDir
  | some specs =>
    cases specs with
    | nil =>
      rw [copyCmds_some_nil]
      exact copyCmds_default_facts sourceDir destDir
    | cons s rest =>
      intro l hl
      rw [show generateCopyCommands sourceDir destDir (some (s :: rest)) =
        (s :: rest).flatMap (copyCmdsForSpec sourceDir destDir) from rfl,
        List.mem_flatMap] at hl
      obtain ⟨sp, -, hl⟩ := hl
      exact copyChunk_facts sourceDir destDir sp l hl

/-- Guard safety of one seven-line guarded command chunk prepended to a
guard-safe list: the guard sits at the second line and the shared goto sits
exactly three lines after it. -/
theorem guardSafeB_block7 (l1 l3 l5 : String) (rest : List String)
    (h1 : l1 ≠ guardLine) (h3 : l3 ≠ guardLine) (h5 : l5 ≠ guardLine)
    (hrest : guardSafeB rest = true) :
    guardSafeB (l1 :: guardLine :: l3 :: ") else (" :: l5 :: gotoErrorLine :: ")" :: rest)
      = true := by
  refine guardSafeB_cons _ _ (Or.inl h1) ?_
  refine guardSafeB_cons _ _ (Or.inr (by simp)) ?_
  refine guardSafeB_cons _ _ (Or.inl h3) ?_
  refine guardSafeB_cons _ _ (Or.inl (by decide)) ?_
  refine guardSafeB_cons _ _ (Or.inl h5) ?_
  refine guardSafeB_cons _ _ (Or.inl (by decide)) ?_
  refine guardSafeB_cons _ _ (Or.inl (by decide)) ?_
  exact hrest

/-- Guard safety of the per-file copy chunks of a files selector. -/
theorem guardSafeB_filesFlat (sourceDir destDir sub : String) :
    ∀ (files : List String) (rest : List String), guardSafeB rest = true →
      guardSafeB (files.flatMap (fun file =>
        ["copy /y \"" ++ (sourceDir ++ ("\\" ++ (sub ++ ("\\" ++ (file ++ ("\" \"" ++ (destDir ++ ("\\" ++ (sub ++ ("\\" ++ (file ++ "\""))))))))))),
         guardLine,
         "echo File copied: " ++ (sub ++ ("\\" ++ file)),
         ") else (",
         "echo ERROR: Failed to copy " ++ (sub ++ ("\\" ++ file)),
         gotoErrorLine,
         ")"]) ++ rest) = true := by
  intro files
  induction files with
  | nil =>
    intro rest h
    exact h
  | cons file fs ih =>
    intro rest h
    rw [List.flatMap_cons, List.append_assoc]
    exact guardSafeB_block7 _ _ _ _ (ne_pre _ _ _ (by decide)) (ne_pre _ _ _ (by decide))
      (ne_pre _ _ _ (by decide)) (ih rest h)

/-- Guard safety of the chunk generated for one selector, prepended to a
guard-safe list. -/
theorem guardSafeB_chunk (sourceDir destDir : String) (sp : FolderSpec) :
    ∀ (rest : List String), guardSafeB rest = true →
      guardSafeB (copyCmdsForSpec sourceDir destDir sp ++ rest) = true := by
  cases sp with
  | whole f =>
    intro rest h
    refine guardSafeB_cons _ _ (Or.inl ?_) ?_
    · rw [String.append_assoc]
      exact ne_pre _ _ _ (by decide)
    refine guardSafeB_cons _ _ (Or.inr (by simp)) ?_
    refine guardSafeB_cons _ _ (Or.inl (ne_pre _ _ _ (by decide))) ?_
    refine guardSafeB_cons _ _ (Or.inl (by decide)) ?_
    refine guardSafeB_cons _ _ (Or.inl (ne_pre _ _ _ (by decide))) ?_
    refine guardSafeB_cons _ _ (Or.inl (by decide)) ?_
    refine guardSafeB_cons _ _ (Or.inl (by decide)) ?_
    exact h
  | filesMap entries =>
    induction entries with
    | nil =>
      intro rest h
      exact h
    | cons pr prs ih =>
      intro rest h
      simp only [copyCmdsForSpec, List.flatMap_cons, List.cons_append, List.append_assoc]
      refine guardSafeB_cons _ _ (Or.inl (ne_pre _ _ _ (by decide))) ?_
      refine guardSafeB_filesFlat sourceDir destDir pr.1 pr.2 _ ?_
      have hprs := ih rest h
      simpa only [copyCmdsForSpec] using hprs

/-- Guard safety of the spliced copy commands of a selector list. -/
theorem guardSafeB_specsFlat (sourceDir destDir : String) :
    ∀ (specs : List FolderSpec) (rest : List String), guardSafeB rest = true →
      guardSafeB (specs.flatMap (copyCmdsForSpec sourceDir destDir) ++ rest) = true := by
  intro specs
  induction specs with
  | nil =>
    intro rest h
    exact h
  | cons sp sps ih =>
    intro rest h
    rw [List.flatMap_cons, List.append_assoc]
    exact guardSafeB_chunk sourceDir destDir sp _ (ih rest h)

/-- Guard safety of the default copy-everything block prepended to a
guard-safe list. -/
theorem guardSafeB_copyCmds_default (sourceDir destDir : String)
    (rest : List String) (h : guardSafeB rest = true) :
    guardSafeB (generateCopyCommands sourceDir destDir none ++ rest) = true := by
  rw [show generateCopyCommands sourceDir destDir none ++ rest =
    ("for /d %%D in (\"" ++ (sourceDir ++ "\\*\") do (")) ::
    ("xcopy \"%%D\\*\" \"" ++ (destDir ++ "\\%%~nxD\\\" /E /I /Y /Q")) ::
    ")" ::
    ("for %%F in (\"" ++ (sourceDir ++ "\\*\") do (")) ::
    ("if /i not \"%%~xF\"==\".bat\" copy /y \"%%F\" \"" ++ (destDir ++ "\\\"")) ::
    ")" :: rest from rfl]
  refine guardSafeB_cons _ _ (Or.inl (ne_pre _ _ _ (by decide))) ?_
  refine guardSafeB_cons _ _ (Or.inl (ne_pre _ _ _ (by decide))) ?_
  refine guardSafeB_cons _ _ (Or.inl (by decide)) ?_
  refine guardSafeB_cons _ _ (Or.inl (ne_pre _ _ _ (by decide))) ?_
  refine guardSafeB_cons _ _ (Or.inl (ne_pre _ _ _ (by decide))) ?_
  refine guardSafeB_cons _ _ (Or.inl (by decide)) ?_
  exact h

/-- Guard safety of the spliced copy commands, in all selector shapes. -/
theorem guardSafeB_copyCmds (sourceDir destDir : String)
    (folders : Option (List FolderSpec)) (rest : List String)
    (h : guardSafeB rest = true) :
    guardSafeB (generateCopyCommands sourceDir destDir folders ++ rest) = true := by
  cases folders with
  | none => exact guardSafeB_copyCmds_default sourceDir destDir rest h
  | some specs =>
    cases specs with
    | nil =>
      rw [copyCmds_some_nil]
      exact guardSafeB_copyCmds_default sourceDir destDir rest h
    | cons s rs =>
      rw [show generateCopyCommands sourceDir destDir (some (s :: rs)) =
        (s :: rs).flatMap (copyCmdsForSpec sourceDir destDir) from rfl]
      exact guardSafeB_specsFlat sourceDir destDir (s :: rs) rest h

/-- The backup xcopy command sits in the prefix of every update script. -/
theorem backupXcopy_mem_updatePrefix (a b c d : String) (n : Nat) :
    backupXcopyLine ∈ updatePrefix a b c d n := by
  simp only [updatePrefix, List.mem_cons]
  exact Or.inr (Or.inr (Or.inr (Or.inr (Or.inr (Or.inr (Or.inr (by decide)))))))

/-- The backup step is the only copy command in the update-script
prefix. -/
theorem updatePrefix_copy_facts (a b c d : String) (n : Nat) :
    ∀ l ∈ updatePrefix a b c d n, isCopyCmdB l = true → l = backupXcopyLine := by
  simp only [updatePrefix, List.forall_mem_cons]
  refine ⟨by decide, by decide, ?_, ?_, ?_, ?_, ?_, by decide⟩
  all_goals exact copy_imp_pre _ _ _ (by decide) (by decide) (by decide)

/-- The update-script prefix contains no error label. -/
theorem updatePrefix_ne_error (a b c d : String) (n : Nat) :
    ∀ l ∈ updatePrefix a b c d n, l ≠ ":error" := by
  simp only [updatePrefix, List.forall_mem_cons]
  refine ⟨by decide, by decide, ?_, ?_, ?_, ?_, ?_, by decide⟩
  all_goals exact ne_pre _ _ _ (by decide)

/-- The update-script prefix contains no exit command at all. -/
theorem updatePrefix_exit_facts (a b c d : String) (n : Nat) :
    ∀ l ∈ updatePrefix a b c d n, isExitCmdB l = true → l = "exit /b 0" := by
  simp only [updatePrefix, List.forall_mem_cons]
  refine ⟨by decide, by decide, ?_, ?_, ?_, ?_, ?_, by decide⟩
  all_goals exact exit_imp_pre _ _ _ (by decide) (by decide)

/-- Every goto in the update-script prefix targets the shared error
path. -/
theorem updatePrefix_goto_facts (a b c d : String) (n : Nat) :
    ∀ l ∈ updatePrefix a b c d n, isGotoB l = true → l = gotoErrorLine := by
  simp only [updatePrefix, List.forall_mem_cons]
  refine ⟨by decide, by decide, ?_, ?_, ?_, ?_, ?_, by decide⟩
  all_goals exact goto_imp_pre _ _ (by decide) (by decide)

/-- The update-script prefix is guard safe: its single errorlevel guard
(the backup guard) jumps to the shared error path. -/
theorem updatePrefix_guardSafe (a b c d : String) (n : Nat) :
    guardSafeB (updatePrefix a b c d n) = true := by
  simp only [updatePrefix]
  refine guardSafeB_cons _ _ (Or.inl (by decide)) ?_
  refine guardSafeB_cons _ _ (Or.inl (by decide)) ?_
  refine guardSafeB_cons _ _ (Or.inl (ne_pre _ _ _ (by decide))) ?_
  refine guardSafeB_cons _ _ (Or.inl (ne_pre _ _ _ (by decide))) ?_
  refine guardSafeB_cons _ _ (Or.inl (ne_pre _ _ _ (by decide))) ?_
  refine guardSafeB_cons _ _ (Or.inl (ne_pre _ _ _ (by decide))) ?_
  refine guardSafeB_cons _ _ (Or.inl (ne_pre _ _ _ (by decide))) ?_
  decide

/-- C1: in every generated update script the backup xcopy is the only copy
command before the spliced staged-to-destination copy commands, which all
come after it; the only exit before the `:error` label is the success exit
`exit /b 0` and the error tail ends in `exit /b 1`; every goto targets the
shared error label, which the error tail never re-enters; and every
errorlevel guard jumps to the shared error path on failure. -/
theorem c1_update_backup_precedes_copy (staging destination : LocationConfig)
    (backup : BackupCfg) (sourceFolders : Option (List FolderSpec)) :
    UpdateStructureOk staging destination backup sourceFolders := by
  unfold UpdateStructureOk
  refine ⟨updatePrefix staging.path destination.path backup.path
      (toBackslashes (pathJoinLocal staging.path "update.log")) (backup.maxBackups.getD 3),
    updateSuffix,
    updatePrefix staging.path destination.path backup.path
        (toBackslashes (pathJoinLocal staging.path "update.log"))
        (backup.maxBackups.getD 3) ++
      (generateCopyCommands staging.path destination.path sourceFolders ++ updateSuffixMain),
    updateErrorTail,
    rfl,
    backupXcopy_mem_updatePrefix _ _ _ _ _,
    updatePrefix_copy_facts _ _ _ _ _,
    by decide,
    ?_, ?_, by decide, ?_, by decide, by decide, by decide, ?_, ?_⟩
  · rw [show generateUpdateBatLines staging destination backup sourceFolders =
      updatePrefix staging.path destination.path backup.path
          (toBackslashes (pathJoinLocal staging.path "update.log"))
          (backup.maxBackups.getD 3) ++
        generateCopyCommands staging.path destination.path sourceFolders ++ updateSuffix
      from rfl, updateSuffix_split]
    simp only [List.append_assoc]
  · intro hmem
    rcases List.mem_append.mp hmem with hp | hcs
    · exact updatePrefix_ne_error _ _ _ _ _ _ hp rfl
    · rcases List.mem_append.mp hcs with hc | hs
      · exact (copyCmds_facts _ _ _ _ hc).1 rfl
      · exact (by decide : ∀ l ∈ updateSuffixMain, l ≠ ":error") _ hs rfl
  · intro l hl
    rcases List.mem_append.mp hl with hp | hcs
    · exact updatePrefix_exit_facts _ _ _ _ _ l hp
    · rcases List.mem_append.mp hcs with hc | hs
      · intro hx
        rw [(copyCmds_facts _ _ _ l hc).2.1] at hx
        exact absurd hx (by simp)
      · exact (by decide : ∀ x ∈ updateSuffixMain,
          isExitCmdB x = true → x = "exit /b 0") l hs
  · intro l hl
    rw [show generateUpdateBatLines staging destination backup sourceFolders =
      updatePrefix staging.path destination.path backup.path
          (toBackslashes (pathJoinLocal staging.path "update.log"))
          (backup.maxBackups.getD 3) ++
        generateCopyCommands staging.path destination.path sourceFolders ++ updateSuffix
      from rfl, List.append_assoc] at hl
    rcases List.mem_append.mp hl with hp | hcs
    · exact updatePrefix_goto_facts _ _ _ _ _ l hp
    · rcases List.mem_append.mp hcs with hc | hs
      · exact (copyCmds_facts _ _ _ l hc).2.2
      · exact (by decide : ∀ x ∈ updateSuffix, isGotoB x = true → x = gotoErrorLine) l hs
  · rw [show generateUpdateBatLines staging destination backup sourceFolders =
      updatePrefix staging.path destination.path backup.path
          (toBackslashes (pathJoinLocal staging.path "update.log"))
          (backup.maxBackups.getD 3) ++
        generateCopyCommands staging.path destination.path sourceFolders ++ updateSuffix
      from rfl, List.append_assoc]
    exact guardSafeB_append (updatePrefix_guardSafe _ _ _ _ _)
      (guardSafeB_copyCmds _ _ _ _ (by decide))

/-- Witness for C1 at a concrete staging, destination, backup
configuration and selector list. -/
theorem c1_update_backup_precedes_copy_witness :
    UpdateStructureOk locStaging locDest bkCfg (some [FolderSpec.whole "wwwroot"]) :=
  c1_update_backup_precedes_copy locStaging locDest bkCfg (some [FolderSpec.whole "wwwroot"])
